import Mathlib

/-!
A shallow embedding, in Lean 4, of the core of the `cppillr` source-analysis
tool: the finite-state lexer (`cppillr/lexer.cpp`), the two-phase
recursive-descent parser (`cppillr/parser.cpp`), the program store
(`cppillr/program.h`), the tree-walking evaluator (`cppillr/run.cpp`) and the
worker pool (`utils/thread_pool.h`), together with theorems checking the
natural-language specification of the repository against this embedding.

Machine characters are modelled as `Nat` byte codes (the C++ lexer works on
`int` character codes, with `0` as the end-of-file sentinel).  Machine `int` /
`long` values are modelled as `Int`; none of the checked properties exercises
overflow.  Fallible C++ code (`error(...)` followed by `std::exit(1)`) is
modelled with `Except`; unbounded C++ loops are modelled with an explicit fuel
parameter, whose exhaustion is a dedicated error value distinct from every
error the source can report.
-/

/-- Byte codes of a Lean string, used to feed source text to the lexer and to
compare identifier spellings (C++ `std::string` bytes). -/
def strLN (s : String) : List Nat := s.data.map Char.toNat

/-- `TextPos` from `cppillr/lexer.h`: a line/column source position. -/
structure TextPos where
  line : Nat
  col : Nat
deriving DecidableEq, Repr

/-- `enum class TokenKind` from `cppillr/lexer.h`. -/
inductive TokenKind where
  | PPBegin
  | PPKeyword
  | PPHeaderName
  | PPEnd
  | Comment
  | Identifier
  | Keyword
  | CharConstant
  | Literal
  | NumericConstant
  | Punctuator
  | Eof
deriving DecidableEq, Repr

/-- `struct Token` from `cppillr/lexer.h`: kind, position and the two
kind-dependent integer payload fields `i`, `j`. -/
structure Token where
  kind : TokenKind
  pos : TextPos
  i : Nat
  j : Nat
deriving DecidableEq, Repr

/-- `struct LexData` from `cppillr/lexer.h`: one file's lexer output. -/
structure LexData where
  fn : String
  ids : List Nat
  comments : List Nat
  tokens : List Token
  readed_bytes : Nat
deriving DecidableEq, Repr

instance : Inhabited LexData := ⟨⟨"", [], [], [], 0⟩⟩

/-- `LexData::add_token` (the `tokens.emplace_back` wrapper). -/
def LexData.add_token (d : LexData) (k : TokenKind) (pos : TextPos)
    (i : Nat) (j : Nat) : LexData :=
  { d with tokens := d.tokens ++ [⟨k, pos, i, j⟩] }

/-- `LexData::id_text`: the `[tok.i, tok.j)` slice of the `ids` arena. -/
def LexData.id_text (d : LexData) (t : Token) : List Nat :=
  (d.ids.drop t.i).take (t.j - t.i)

/-- `LexData::comment_text`: the `[tok.i, tok.j)` slice of the `comments`
arena. -/
def LexData.comment_text (d : LexData) (t : Token) : List Nat :=
  (d.comments.drop t.i).take (t.j - t.i)

/-- Modelled from the spec: the file `cppillr/keywords_list.h` (the X-macro
list of keyword spellings) is not part of the given sources; only
`cppillr/keywords.h` and the table-building code (`keywords[#x] = key_##x`)
are.  Following the spec's "static bidirectional maps from textual
keyword/preprocessor-directive spellings to small integer codes", each keyword
is mapped to its position in this list.  The list contains every keyword the
given sources reference (`key_auto` … `key_wchar_t`, `key_return`,
`key_const`, `key_class`, `key_struct`, `key_enum`, `key_union`,
`key_namespace`); the concrete order is not observable by any checked claim. -/
def keywordSpellings : List String :=
  ["auto", "bool", "char", "char8_t", "char16_t", "char32_t", "class",
   "const", "double", "enum", "float", "int", "long", "namespace", "return",
   "short", "signed", "struct", "union", "unsigned", "void", "wchar_t"]

/-- Modelled from the spec: preprocessor-directive spellings (see
`keywordSpellings`); the sources reference `pp_key_include`, `pp_key_error`,
`pp_key_if`, `pp_key_ifdef`, `pp_key_ifndef`, `pp_key_endif`. -/
def ppKeywordSpellings : List String :=
  ["define", "elif", "else", "endif", "error", "if", "ifdef", "ifndef",
   "include", "line", "pragma", "undef"]

/-- Position of a spelling in a table (the `unordered_map` lookup, with the
code being the enumerator's position). -/
def lookupCode : List (List Nat) → Nat → List Nat → Option Nat
  | [], _, _ => none
  | k :: t, n, s => if s = k then some n else lookupCode t (n + 1) s

/-- The `keywords` map from `cppillr/keywords.cpp`. -/
def keywords (s : List Nat) : Option Nat :=
  lookupCode (keywordSpellings.map strLN) 0 s

/-- The `pp_keywords` map from `cppillr/keywords.cpp`. -/
def pp_keywords (s : List Nat) : Option Nat :=
  lookupCode (ppKeywordSpellings.map strLN) 0 s

def key_auto : Nat := 0
def key_bool : Nat := 1
def key_char : Nat := 2
def key_char8_t : Nat := 3
def key_char16_t : Nat := 4
def key_char32_t : Nat := 5
def key_class : Nat := 6
def key_const : Nat := 7
def key_double : Nat := 8
def key_enum : Nat := 9
def key_float : Nat := 10
def key_int : Nat := 11
def key_long : Nat := 12
def key_namespace : Nat := 13
def key_return : Nat := 14
def key_short : Nat := 15
def key_signed : Nat := 16
def key_struct : Nat := 17
def key_union : Nat := 18
def key_unsigned : Nat := 19
def key_void : Nat := 20
def key_wchar_t : Nat := 21

def pp_key_include : Nat := 8
def pp_key_error : Nat := 4

/-- C `isspace` on byte codes (used by `trim_string` in `utils/string.cpp`). -/
def isSpaceCode (c : Nat) : Bool := c = 32 ∨ (9 ≤ c ∧ c ≤ 13)

/-- `trim_string` from `utils/string.cpp`: erase trailing whitespace, then
leading whitespace. -/
def trim_string (s : List Nat) : List Nat :=
  ((s.reverse.dropWhile isSpaceCode).reverse).dropWhile isSpaceCode

/-- `enum class LexState` from `cppillr/lexer.h`. -/
inductive LexState where
  | ReadingWhitespace
  | ReadingWhitespaceToEOL
  | ReadingIdentifier
  | ReadingLineComment
  | ReadingMultilineComment
  | ReadingBeforeHeaderName
  | ReadingSysHeaderName
  | ReadingUserHeaderName
  | ReadingErrorTextToEOL
  | ReadingString
  | ReadingWideString
  | ReadingChar
  | ReadingWideChar
  | ReadingHexadecimal
  | ReadingBinary
  | ReadingOctal
  | ReadingIntegerPart
  | ReadingDecimalPart
deriving DecidableEq, Repr

/-- `class CharReader`: the not-yet-consumed input bytes, the number of bytes
read so far (`readed_bytes_`; with the chunked `fread` of the source every
byte that is ever consumed has been counted, so the final counts agree), and
the line/column position. -/
structure CharReader where
  input : List Nat
  readed : Nat
  pos : TextPos
deriving DecidableEq, Repr

/-- `CharReader::nextchar`: `0` at end of file, otherwise the next byte;
a newline advances the line counter and resets the column. -/
def CharReader.nextchar : CharReader → Nat × CharReader
  | ⟨[], n, p⟩ => (0, ⟨[], n, p⟩)
  | ⟨c :: t, n, p⟩ =>
    (c, ⟨t, n + 1, if c = 10 then ⟨p.line + 1, 0⟩ else ⟨p.line, p.col + 1⟩⟩)

/-- `CharReader::eof`. -/
def CharReader.eof (r : CharReader) : Bool := r.input = []

/-- `enum class Lexer::Action`. -/
inductive LexAction where
  | NextChr
  | ProcessChr
deriving DecidableEq, Repr

/-- The fatal lexer diagnostics (`Lexer::error`, which prints
`<file>:<line>:<col>: <message>` and calls `std::exit(1)`), plus a
distinguished out-of-fuel marker used only by the fueled loop wrappers and
never produced by the embedded source logic itself. -/
inductive LexErr where
  | unexpected (pos : TextPos) (chr : Nat)
  | afterBackslash (pos : TextPos) (chr : Nat)
  | afterInclude (pos : TextPos) (chr : Nat)
  | octalDigit (pos : TextPos) (chr : Nat)
  | outOfFuel
deriving DecidableEq, Repr

instance : Inhabited Token := ⟨⟨.Eof, ⟨0, 0⟩, 0, 0⟩⟩

/-- The mutable state of `class Lexer` together with its `CharReader`. -/
structure LexSt where
  state : LexState
  data : LexData
  reader : CharReader
  chr : Nat
  prepro : Bool
  tok_id : List Nat
  keep_comments : Bool
deriving DecidableEq, Repr

/-- `Lexer::add_token_id`: append `tok_id` to the `ids` arena and emit a token
whose `[i,j)` payload is the range just appended, then clear `tok_id`. -/
def LexSt.add_token_id (st : LexSt) (k : TokenKind) : LexSt :=
  let ids' := st.data.ids ++ st.tok_id
  { st with data := ({ st.data with ids := ids' }).add_token k st.reader.pos (ids'.length - st.tok_id.length) ids'.length, tok_id := [] }

/-- `Lexer::add_token_comment`: trim `tok_id`; if anything remains, append it
to the `comments` arena and either widen the previous `Comment` token's range
(comment merging) or emit a new `Comment` token. -/
def LexSt.add_token_comment (st : LexSt) : LexSt :=
  let t := trim_string st.tok_id
  if t = [] then { st with tok_id := t }
  else
    let comments' := st.data.comments ++ t
    let merge : Bool :=
      match st.data.tokens.getLast? with
      | some tk => tk.kind = TokenKind.Comment
      | none => false
    if merge then
      let lastTok := st.data.tokens.getLastD default
      let tokens' := st.data.tokens.dropLast ++ [{ lastTok with j := comments'.length }]
      { st with data := { st.data with comments := comments', tokens := tokens' }, tok_id := [] }
    else
      { st with data := ({ st.data with comments := comments' }).add_token .Comment st.reader.pos (comments'.length - t.length) comments'.length, tok_id := [] }

/-- `Lexer::process`: one step of the lexer's finite-state machine on the
current character `st.chr`.  Each branch mirrors the corresponding `case` of
the C++ `switch`; branches that call `reader.nextchar()` for one-character
look-ahead consume that character here, and the `ProcessChr` action asks the
caller to re-run `process` on the (possibly replaced) current character
without reading further input. -/
def Lexer.process (st : LexSt) : Except LexErr (LexSt × LexAction) :=
  match st.state with
  | .ReadingWhitespace =>
    let c := st.chr
    if c = 32 ∨ c = 9 ∨ c = 13 then
      -- Ignore whitespace
      .ok (st, .NextChr)
    else if c = 10 then
      if st.prepro then
        .ok ({ st with data := st.data.add_token .PPEnd st.reader.pos 0 0, prepro := false }, .NextChr)
      else .ok (st, .NextChr)
    else if c = 92 then
      .ok ({ st with state := .ReadingWhitespaceToEOL }, .NextChr)
    else if c = 35 then
      .ok ({ st with state := .ReadingIdentifier, prepro := true, data := st.data.add_token .PPBegin st.reader.pos 0 0, tok_id := [] }, .NextChr)
    else if c = 34 then -- double quote
      .ok ({ st with state := .ReadingString, tok_id := [] }, .NextChr)
    else if c = 39 then -- single quote
      .ok ({ st with state := .ReadingChar, tok_id := [] }, .NextChr)
    else if c = 123 ∨ c = 125 ∨ c = 40 ∨ c = 41 ∨
            c = 91 ∨ c = 93 ∨ c = 44 ∨ c = 59 ∨
            c = 63 ∨ c = 64 then
      -- one-character punctuators (123/125 are the braces)
      .ok ({ st with data := st.data.add_token .Punctuator st.reader.pos c 0 },
           .NextChr)
    else if c = 46 then
      let (c2, rd) := st.reader.nextchar
      if 48 ≤ c2 ∧ c2 ≤ 57 then
        .ok ({ st with reader := rd, tok_id := st.tok_id ++ [c, c2], state := .ReadingDecimalPart }, .NextChr)
      else
        .ok ({ st with reader := rd, chr := c2, data := st.data.add_token .Punctuator rd.pos c 0 }, .ProcessChr)
    else if c = 43 then
      let (c2, rd) := st.reader.nextchar
      if c2 = 43 ∨ c2 = 61 then
        .ok ({ st with reader := rd, chr := c2, data := st.data.add_token .Punctuator rd.pos c c2 }, .NextChr)
      else
        .ok ({ st with reader := rd, chr := c2, data := st.data.add_token .Punctuator rd.pos c 0 }, .ProcessChr)
    else if c = 45 then
      let (c2, rd) := st.reader.nextchar
      if c2 = 45 ∨ c2 = 61 ∨ c2 = 62 then
        .ok ({ st with reader := rd, chr := c2, data := st.data.add_token .Punctuator rd.pos c c2 }, .NextChr)
      else
        .ok ({ st with reader := rd, chr := c2, data := st.data.add_token .Punctuator rd.pos c 0 }, .ProcessChr)
    else if c = 47 then
      let (c2, rd) := st.reader.nextchar
      if c2 = 47 then
        .ok ({ st with reader := rd, chr := c2, state := .ReadingLineComment }, .NextChr)
      else if c2 = 42 then
        .ok ({ st with reader := rd, chr := c2, state := .ReadingMultilineComment }, .NextChr)
      else if c2 = 61 then
        .ok ({ st with reader := rd, chr := c2, data := st.data.add_token .Punctuator rd.pos c c2 }, .NextChr)
      else
        .ok ({ st with reader := rd, chr := c2, data := st.data.add_token .Punctuator rd.pos c 0 }, .ProcessChr)
    else if c = 38 ∨ c = 124 ∨ c = 58 then
      let (c2, rd) := st.reader.nextchar
      if c = c2 then
        .ok ({ st with reader := rd, data := st.data.add_token .Punctuator rd.pos c c2 }, .NextChr)
      else
        .ok ({ st with reader := rd, chr := c2, data := st.data.add_token .Punctuator rd.pos c 0 }, .ProcessChr)
    else if c = 94 ∨ c = 37 ∨ c = 42 ∨ c = 33 ∨
            c = 126 then
      let (c2, rd) := st.reader.nextchar
      if c2 = 61 then
        .ok ({ st with reader := rd, data := st.data.add_token .Punctuator rd.pos c c2 }, .NextChr)
      else
        .ok ({ st with reader := rd, chr := c2, data := st.data.add_token .Punctuator rd.pos c 0 }, .ProcessChr)
    else if c = 60 ∨ c = 62 ∨ c = 61 then
      let (c2, rd) := st.reader.nextchar
      if c = c2 ∨ c2 = 61 then
        .ok ({ st with reader := rd, chr := c2, data := st.data.add_token .Punctuator rd.pos c c2 }, .NextChr)
      else
        .ok ({ st with reader := rd, chr := c2, data := st.data.add_token .Punctuator rd.pos c 0 }, .ProcessChr)
    else if (97 ≤ c ∧ c ≤ 122) ∨ (65 ≤ c ∧ c ≤ 90) ∨ 95 ≤ c then
      -- identifier start (the source's condition really is `chr >= '_'`)
      .ok ({ st with state := .ReadingIdentifier, tok_id := st.tok_id ++ [c] }, .NextChr)
    else if c = 48 then
      -- octal/hexadecimal/binary
      let (c2, rd) := st.reader.nextchar
      if c2 = 120 ∨ c2 = 88 then
        .ok ({ st with reader := rd, state := .ReadingHexadecimal, tok_id := st.tok_id ++ [c, c2] }, .NextChr)
      else if c2 = 98 ∨ c2 = 66 then
        .ok ({ st with reader := rd, state := .ReadingBinary, tok_id := st.tok_id ++ [c, c2] }, .NextChr)
      else if 48 ≤ c2 ∧ c2 ≤ 55 then
        .ok ({ st with reader := rd, state := .ReadingOctal, tok_id := st.tok_id ++ [c, c2] }, .NextChr)
      else if c2 = 46 then
        .ok ({ st with reader := rd, state := .ReadingDecimalPart, tok_id := st.tok_id ++ [c, c2] }, .NextChr)
      else
        let st1 := ({ st with reader := rd, tok_id := st.tok_id ++ [c] }).add_token_id .NumericConstant
        .ok ({ st1 with state := .ReadingWhitespace, chr := c2 }, .ProcessChr)
    else if 49 ≤ c ∧ c ≤ 57 then
      -- decimal/double/float
      .ok ({ st with state := .ReadingIntegerPart, tok_id := st.tok_id ++ [c] }, .NextChr)
    else if c = 0 ∧ st.reader.eof then
      -- EOF
      .ok (st, .NextChr)
    else
      .error (.unexpected st.reader.pos c)
  | .ReadingWhitespaceToEOL =>
    let c := st.chr
    if c = 32 ∨ c = 9 ∨ c = 13 then
      .ok (st, .NextChr)
    else if c = 10 then
      .ok ({ st with state := .ReadingWhitespace }, .NextChr)
    else
      .error (.afterBackslash st.reader.pos c)
  | .ReadingErrorTextToEOL =>
    let c := st.chr
    if c = 10 then
      let st1 := st.add_token_id .Literal
      .ok ({ st1 with data := st1.data.add_token .PPEnd st1.reader.pos 0 0, state := .ReadingWhitespace, prepro := false }, .NextChr)
    else
      .ok ({ st with tok_id := st.tok_id ++ [c] }, .NextChr)
  | .ReadingIdentifier =>
    let c := st.chr
    if (97 ≤ c ∧ c ≤ 122) ∨ (65 ≤ c ∧ c ≤ 90) ∨ (48 ≤ c ∧ c ≤ 57) ∨ 95 ≤ c then
      .ok ({ st with tok_id := st.tok_id ++ [c] }, .NextChr)
    else if st.prepro then
      match pp_keywords st.tok_id with
      | some code =>
        let st1 := { st with data := st.data.add_token .PPKeyword st.reader.pos code 0, tok_id := [] }
        if code = pp_key_include then
          .ok ({ st1 with state := .ReadingBeforeHeaderName }, .ProcessChr)
        else if code = pp_key_error then
          .ok ({ st1 with state := .ReadingErrorTextToEOL }, .ProcessChr)
        else
          .ok ({ st1 with state := .ReadingWhitespace }, .ProcessChr)
      | none =>
        .ok ({ st.add_token_id .Identifier with state := .ReadingWhitespace },
             .ProcessChr)
    else
      match keywords st.tok_id with
      | some code =>
        .ok ({ st with data := st.data.add_token .Keyword st.reader.pos code 0, tok_id := [], state := .ReadingWhitespace }, .ProcessChr)
      | none =>
        .ok ({ st.add_token_id .Identifier with state := .ReadingWhitespace },
             .ProcessChr)
  | .ReadingLineComment =>
    let c := st.chr
    if c = 10 then
      if st.keep_comments then
        .ok ({ ({ st with tok_id := st.tok_id ++ [c] }).add_token_comment with
               state := .ReadingWhitespace }, .NextChr)
      else
        .ok ({ st with state := .ReadingWhitespace }, .NextChr)
    else if st.keep_comments then
      .ok ({ st with tok_id := st.tok_id ++ [c] }, .NextChr)
    else
      .ok (st, .NextChr)
  | .ReadingMultilineComment =>
    let c := st.chr
    if c = 42 then
      let (c2, rd) := st.reader.nextchar
      if c2 = 47 then
        if st.keep_comments then
          .ok ({ ({ st with reader := rd, chr := c2 }).add_token_comment with
                 state := .ReadingWhitespace }, .NextChr)
        else
          .ok ({ st with reader := rd, chr := c2, state := .ReadingWhitespace }, .NextChr)
      else if st.keep_comments then
        .ok ({ st with reader := rd, chr := c2, tok_id := st.tok_id ++ [c2] }, .NextChr)
      else
        .ok ({ st with reader := rd, chr := c2 }, .NextChr)
    else if st.keep_comments then
      .ok ({ st with tok_id := st.tok_id ++ [c] }, .NextChr)
    else
      .ok (st, .NextChr)
  | .ReadingBeforeHeaderName =>
    let c := st.chr
    if c = 32 ∨ c = 9 then
      .ok (st, .NextChr)
    else if c = 60 then
      .ok ({ st with state := .ReadingSysHeaderName, tok_id := st.tok_id ++ [c] }, .NextChr)
    else if c = 34 then -- double quote
      .ok ({ st with state := .ReadingUserHeaderName, tok_id := st.tok_id ++ [c] }, .NextChr)
    else if (97 ≤ c ∧ c ≤ 122) ∨ (65 ≤ c ∧ c ≤ 90) ∨ 95 ≤ c then
      .ok ({ st with state := .ReadingIdentifier, tok_id := st.tok_id ++ [c] }, .NextChr)
    else
      .error (.afterInclude st.reader.pos c)
  | .ReadingSysHeaderName =>
    let c := st.chr
    if c = 62 then
      .ok ({ ({ st with tok_id := st.tok_id ++ [c] }).add_token_id
             .PPHeaderName with state := .ReadingWhitespace }, .NextChr)
    else if c = 92 then -- backslash
      let (c2, rd) := st.reader.nextchar
      let t := if c2 = 110 then 10
               else if c2 = 114 then 13
               else if c2 = 116 then 9 else c2
      .ok ({ st with reader := rd, chr := c2, tok_id := st.tok_id ++ [t] }, .NextChr)
    else
      .ok ({ st with tok_id := st.tok_id ++ [c] }, .NextChr)
  | .ReadingUserHeaderName =>
    let c := st.chr
    if c = 34 then -- double quote
      .ok ({ ({ st with tok_id := st.tok_id ++ [c] }).add_token_id
             .PPHeaderName with state := .ReadingWhitespace }, .NextChr)
    else if c = 92 then -- backslash
      let (c2, rd) := st.reader.nextchar
      let t := if c2 = 110 then 10
               else if c2 = 114 then 13
               else if c2 = 116 then 9 else c2
      .ok ({ st with reader := rd, chr := c2, tok_id := st.tok_id ++ [t] }, .NextChr)
    else
      .ok ({ st with tok_id := st.tok_id ++ [c] }, .NextChr)
  | .ReadingString =>
    let c := st.chr
    if c = 34 then -- double quote
      .ok ({ st.add_token_id .Literal with state := .ReadingWhitespace },
           .NextChr)
    else if c = 92 then -- backslash
      let (c2, rd) := st.reader.nextchar
      let t := if c2 = 110 then 10
               else if c2 = 114 then 13
               else if c2 = 116 then 9 else c2
      .ok ({ st with reader := rd, chr := c2, tok_id := st.tok_id ++ [t] }, .NextChr)
    else
      .ok ({ st with tok_id := st.tok_id ++ [c] }, .NextChr)
  | .ReadingWideString => .ok (st, .NextChr)
  | .ReadingChar =>
    let c := st.chr
    if c = 39 then -- single quote
      .ok ({ st.add_token_id .CharConstant with state := .ReadingWhitespace },
           .NextChr)
    else if c = 92 then -- backslash
      let (c2, rd) := st.reader.nextchar
      let t := if c2 = 110 then 10
               else if c2 = 114 then 13
               else if c2 = 116 then 9 else c2
      .ok ({ st with reader := rd, chr := c2, tok_id := st.tok_id ++ [t] }, .NextChr)
    else
      .ok ({ st with tok_id := st.tok_id ++ [c] }, .NextChr)
  | .ReadingWideChar => .ok (st, .NextChr)
  | .ReadingHexadecimal =>
    let c := st.chr
    if (97 ≤ c ∧ c ≤ 102) ∨ (65 ≤ c ∧ c ≤ 70) ∨ (48 ≤ c ∧ c ≤ 57) then
      .ok ({ st with tok_id := st.tok_id ++ [c] }, .NextChr)
    else
      .ok ({ st.add_token_id .NumericConstant with
             state := .ReadingWhitespace }, .ProcessChr)
  | .ReadingBinary =>
    let c := st.chr
    if c = 48 ∨ c = 49 then
      .ok ({ st with tok_id := st.tok_id ++ [c] }, .NextChr)
    else
      .ok ({ st.add_token_id .NumericConstant with
             state := .ReadingWhitespace }, .ProcessChr)
  | .ReadingOctal =>
    let c := st.chr
    if 48 ≤ c ∧ c ≤ 55 then
      .ok ({ st with tok_id := st.tok_id ++ [c] }, .NextChr)
    else if 56 ≤ c ∧ c ≤ 57 then
      .error (.octalDigit st.reader.pos c)
    else
      .ok ({ st.add_token_id .NumericConstant with
             state := .ReadingWhitespace }, .ProcessChr)
  | .ReadingIntegerPart =>
    let c := st.chr
    if 48 ≤ c ∧ c ≤ 57 then
      .ok ({ st with tok_id := st.tok_id ++ [c] }, .NextChr)
    else if c = 46 then
      .ok ({ st with state := .ReadingDecimalPart, tok_id := st.tok_id ++ [c] }, .NextChr)
    else
      .ok ({ st.add_token_id .NumericConstant with
             state := .ReadingWhitespace }, .ProcessChr)
  | .ReadingDecimalPart =>
    let c := st.chr
    if 48 ≤ c ∧ c ≤ 57 then
      .ok ({ st with tok_id := st.tok_id ++ [c] }, .NextChr)
    else if c = 102 then
      .ok ({ ({ st with tok_id := st.tok_id ++ [c] }).add_token_id
             .NumericConstant with state := .ReadingWhitespace }, .NextChr)
    else
      .ok ({ st.add_token_id .NumericConstant with
             state := .ReadingWhitespace }, .ProcessChr)

/-- The inner `while (process() == Action::ProcessChr)` loop of `Lexer::lex`. -/
def Lexer.processLoopF : Nat → LexSt → Except LexErr LexSt
  | 0, _ => .error .outOfFuel
  | fuel + 1, st =>
    match Lexer.process st with
    | .error e => .error e
    | .ok (st', .NextChr) => .ok st'
    | .ok (st', .ProcessChr) => Lexer.processLoopF fuel st'

/-- The outer `do { chr = reader.nextchar(); … } while (chr)` loop of
`Lexer::lex`, finishing with `readed_bytes` and the terminal `Eof` token. -/
def Lexer.lexLoopF : Nat → LexSt → Except LexErr LexData
  | 0, _ => .error .outOfFuel
  | fuel + 1, st =>
    let (c, rd) := st.reader.nextchar
    match Lexer.processLoopF (fuel + 1) { st with chr := c, reader := rd } with
    | .error e => .error e
    | .ok st' =>
      if st'.chr ≠ 0 then Lexer.lexLoopF fuel st'
      else
        .ok (({ st'.data with readed_bytes := st'.reader.readed }).add_token
          .Eof st'.reader.pos 0 0)

/-- The state `Lexer::lex` sets up before its read loop. -/
def Lexer.initSt (fn : String) (input : List Nat) : LexSt :=
  { state := .ReadingWhitespace
    data := { fn := fn, ids := [], comments := [], tokens := [], readed_bytes := 0 }
    reader := { input := input, readed := 0, pos := ⟨1, 0⟩ }
    chr := 0
    prepro := false
    tok_id := []
    keep_comments := true }

/-- `Lexer::lex` on in-memory input bytes (the file has already been opened;
`Result::ErrorOpeningFile` concerns only the out-of-scope file system). -/
def Lexer.lexF (fuel : Nat) (fn : String) (input : List Nat) :
    Except LexErr LexData :=
  Lexer.lexLoopF fuel (Lexer.initSt fn input)

/-! ## The parser (`cppillr/parser.h`, `cppillr/parser.cpp`)

C++ node pointers (`Expr*`, `BodyNode*`, …) are modelled as `Option` values:
`none` is a null pointer.  The parser functions take the token index that the
C++ parser keeps in `tok_i` (an `int`: phase 1 starts from `goto_token(-1)`,
hence `Int`) and return the updated index.  `Parser::error` (printf +
`std::exit(1)`) is an `Except` error. -/

/-- `struct ParamNode` (`builtin_type`, optional `name`; an absent name is the
empty string, exactly as in the C++ default-constructed `std::string`). -/
structure ParamNode where
  builtin_type : Nat
  name : List Nat
deriving DecidableEq, Repr

/-- `struct ParamsNode`. -/
structure ParamsNode where
  params : List ParamNode
deriving DecidableEq, Repr

/-- The `Expr` node family (`UnaryExpr`, `BinExpr`, `Literal`), with `Option`
for the `Expr*` child pointers.  `op` holds the punctuator's character code
(`tok->i`), `value` the `std::strtol` result. -/
inductive Expr where
  | UnaryExpr (op : Nat) (operand : Option Expr)
  | BinExpr (op : Nat) (lhs : Option Expr) (rhs : Option Expr)
  | Literal (value : Int)

/-- The `Stmt` node family (`Return`, `CompoundStmt`). -/
inductive Stmt where
  | Return (expr : Option Expr)
  | CompoundStmt (stmts : List Stmt)

/-- `struct BodyNode`: the lex-result index and the `[beg_tok, end_tok]`
token span recorded by phase 1, plus the phase-2 `block` pointer
(`CompoundStmt*`, here an optional `Stmt.CompoundStmt`). -/
structure BodyNode where
  lex_i : Int
  beg_tok : Int
  end_tok : Int
  block : Option Stmt

/-- `struct FunctionNode`. -/
structure FunctionNode where
  builtin_type : Nat
  name : List Nat
  params : Option ParamsNode
  body : Option BodyNode

/-- `struct ParserData` (the `const LexData* lex` member is never assigned
anywhere in the sources and is omitted). -/
structure ParserData where
  fn : String
  functions : List FunctionNode

/-- Fatal parser diagnostics (`Parser::error`: `<file>:<line>:<col>: <msg>`
then `std::exit(1)`), plus the distinguished fuel marker of the fueled loop
wrappers. -/
inductive PErr where
  | err (fn : String) (pos : TextPos) (msg : String)
  | outOfFuel
deriving DecidableEq, Repr

/-- The `Token Parser::eof` sentinel member. -/
def eofTok : Token := ⟨.Eof, ⟨0, 0⟩, 0, 0⟩

/-- `Parser::goto_token` / the `tok` pointer: token `i` of the lex data, or
the `eof` sentinel when `i` is out of range. -/
def tokAt (lex : LexData) (i : Int) : Token :=
  if 0 ≤ i ∧ i < (lex.tokens.length : Int) then lex.tokens.getD i.toNat eofTok
  else eofTok

/-- `Parser::is_punctuator`. -/
def is_punctuator (lex : LexData) (i : Int) (c : Nat) : Prop :=
  (tokAt lex i).kind = .Punctuator ∧ (tokAt lex i).i = c

instance (lex : LexData) (i : Int) (c : Nat) :
    Decidable (is_punctuator lex i c) := by
  unfold is_punctuator; infer_instance

/-- `Parser::is_builtin_type`. -/
def is_builtin_type (lex : LexData) (i : Int) : Prop :=
  (tokAt lex i).kind = .Keyword ∧
    ((tokAt lex i).i = key_auto ∨ (tokAt lex i).i = key_bool ∨
     (tokAt lex i).i = key_char ∨ (tokAt lex i).i = key_char8_t ∨
     (tokAt lex i).i = key_char16_t ∨ (tokAt lex i).i = key_char32_t ∨
     (tokAt lex i).i = key_double ∨ (tokAt lex i).i = key_float ∨
     (tokAt lex i).i = key_int ∨ (tokAt lex i).i = key_long ∨
     (tokAt lex i).i = key_short ∨ (tokAt lex i).i = key_signed ∨
     (tokAt lex i).i = key_unsigned ∨ (tokAt lex i).i = key_void ∨
     (tokAt lex i).i = key_wchar_t)

instance (lex : LexData) (i : Int) : Decidable (is_builtin_type lex i) := by
  unfold is_builtin_type; infer_instance

/-- A parse error at the current token's position (`Parser::error` uses
`tok->pos`; the embedded `tok` is total, so the file-only fallback of the
C++ diagnostic does not arise). -/
def pErr (lex : LexData) (i : Int) (msg : String) : PErr :=
  .err lex.fn (tokAt lex i).pos msg

/-- The value of a digit character, or a too-large marker for non-digits. -/
def digitVal (c : Nat) : Nat :=
  if 48 ≤ c ∧ c ≤ 57 then c - 48
  else if 97 ≤ c ∧ c ≤ 102 then c - 87
  else if 65 ≤ c ∧ c ≤ 70 then c - 55
  else 999

/-- Digit accumulation of `strtol` for a fixed base: consume valid digits,
stop at the first invalid one. -/
def strtolCore (base : Nat) (s : List Nat) : Int :=
  Int.ofNat ((s.takeWhile (fun c => digitVal c < base)).foldl
    (fun a c => a * base + digitVal c) 0)

/-- Base detection of `strtol(s, nullptr, 0)`: `0x`/`0X` is hexadecimal, a
leading `0` is octal, anything else decimal. -/
def strtolBase0 (s : List Nat) : Int :=
  match s with
  | 48 :: c :: t =>
    if c = 120 ∨ c = 88 then strtolCore 16 t else strtolCore 8 (48 :: c :: t)
  | _ => strtolCore 10 s

/-- Shallow model of C `std::strtol(str, nullptr, 0)` as used by
`Parser::primary_expression`: skip leading whitespace, optional sign, then
base-prefix-aware digit accumulation stopping at the first invalid digit
(`long` overflow clamping is not modelled; no checked property reaches it). -/
def strtolM (s : List Nat) : Int :=
  match s.dropWhile isSpaceCode with
  | c :: t =>
    if c = 45 then - strtolBase0 t
    else if c = 43 then strtolBase0 t
    else strtolBase0 (c :: t)
  | [] => 0

mutual

/-- `Parser::expression` (phase 2). -/
def expressionF : Nat → LexData → Int → Except PErr (Option Expr × Int)
  | 0, _, _ => .error .outOfFuel
  | fuel + 1, lex, i => additive_expressionF fuel lex i

/-- `Parser::additive_expression`. -/
def additive_expressionF : Nat → LexData → Int → Except PErr (Option Expr × Int)
  | 0, _, _ => .error .outOfFuel
  | fuel + 1, lex, i =>
    match multiplicative_expressionF fuel lex i with
    | .error e => .error e
    | .ok (none, i') => .ok (none, i')
    | .ok (some e, i') => addLoopF fuel lex e i'

/-- The `while (is_punctuator('+') || is_punctuator('-'))` loop of
`Parser::additive_expression`.  Note that, unlike the multiplicative loop,
the source does not check the right operand for null here. -/
def addLoopF : Nat → LexData → Expr → Int → Except PErr (Option Expr × Int)
  | 0, _, _, _ => .error .outOfFuel
  | fuel + 1, lex, e, i =>
    if is_punctuator lex i 43 ∨ is_punctuator lex i 45 then
      let op := (tokAt lex i).i
      match multiplicative_expressionF fuel lex (i + 1) with
      | .error e2 => .error e2
      | .ok (rhs, i') => addLoopF fuel lex (.BinExpr op (some e) rhs) i'
    else .ok (some e, i)

/-- `Parser::multiplicative_expression`. -/
def multiplicative_expressionF :
    Nat → LexData → Int → Except PErr (Option Expr × Int)
  | 0, _, _ => .error .outOfFuel
  | fuel + 1, lex, i =>
    match primary_expressionF fuel lex i with
    | .error e => .error e
    | .ok (none, i') => .ok (none, i')
    | .ok (some e, i') => mulLoopF fuel lex e i'

/-- The `while (is_punctuator('*') || is_punctuator('/') ||
is_punctuator('%'))` loop of `Parser::multiplicative_expression`; a null
right operand is a fatal error here. -/
def mulLoopF : Nat → LexData → Expr → Int → Except PErr (Option Expr × Int)
  | 0, _, _, _ => .error .outOfFuel
  | fuel + 1, lex, e, i =>
    if is_punctuator lex i 42 ∨ is_punctuator lex i 47 ∨
       is_punctuator lex i 37 then
      let op := (tokAt lex i).i
      match primary_expressionF fuel lex (i + 1) with
      | .error e2 => .error e2
      | .ok (none, i') =>
        .error (pErr lex i' (("expecting expression after ").push
          (Char.ofNat op)))
      | .ok (some rhs, i') =>
        mulLoopF fuel lex (.BinExpr op (some e) (some rhs)) i'
    else .ok (some e, i)

/-- `Parser::primary_expression`. -/
def primary_expressionF :
    Nat → LexData → Int → Except PErr (Option Expr × Int)
  | 0, _, _ => .error .outOfFuel
  | fuel + 1, lex, i =>
    if is_punctuator lex i 40 then
      match expressionF fuel lex (i + 1) with
      | .error e => .error e
      | .ok (e, i') =>
        if ¬ is_punctuator lex i' 41 then
          .error (pErr lex i' ("expected ')' to finish expression"))
        else .ok (e, i' + 1)
    else if is_punctuator lex i 42 ∨ is_punctuator lex i 38 ∨
            is_punctuator lex i 43 ∨ is_punctuator lex i 45 ∨
            is_punctuator lex i 33 ∨ is_punctuator lex i 126 then
      let op := (tokAt lex i).i
      match primary_expressionF fuel lex (i + 1) with
      | .error e => .error e
      | .ok (none, i') =>
        .error (pErr lex i' ("expected primary expression after '-'"))
      | .ok (some e, i') => .ok (some (.UnaryExpr op (some e)), i')
    else if (tokAt lex i).kind = .NumericConstant then
      .ok (some (.Literal (strtolM (lex.id_text (tokAt lex i)))), i + 1)
    else .ok (none, i)

end

/-- `Parser::return_stmt`. -/
def return_stmtF (fuel : Nat) (lex : LexData) (i : Int) :
    Except PErr (Stmt × Int) :=
  let i := i + 1
  if (tokAt lex i).kind ≠ .Eof then
    if ¬ is_punctuator lex i 59 then
      match expressionF fuel lex i with
      | .error e => .error e
      | .ok (none, i') =>
        .error (pErr lex i' ("expecting ';' or expression for return statement"))
      | .ok (some e, i') =>
        if is_punctuator lex i' 59 then .ok (.Return (some e), i' + 1)
        else .ok (.Return (some e), i')
    else .ok (.Return none, i + 1)
  else .error (pErr lex i ("expecting ';' or expression for return statement"))

/-- `Parser::statement`: a bare `;` skips the token and returns a null
statement; `return` dispatches to `return_stmt`; anything else is fatal. -/
def statementF (fuel : Nat) (lex : LexData) (i : Int) :
    Except PErr (Option Stmt × Int) :=
  if is_punctuator lex i 59 then .ok (none, i + 1)
  else if (tokAt lex i).kind = .Keyword then
    if (tokAt lex i).i = key_return then
      match return_stmtF fuel lex i with
      | .error e => .error e
      | .ok (s, i') => .ok (some s, i')
    else
      .error (pErr lex i (("not supported keyword ") ++
        keywordSpellings.getD (tokAt lex i).i ""))
  else .error (pErr lex i ("expecting '\x7d' or statement"))

/-- The statement loop of `Parser::compound_statement`; a null statement from
`statement()` (a bare `;`) makes the whole block null. -/
def compLoopF : Nat → LexData → Int → List Stmt →
    Except PErr (Option Stmt × Int)
  | 0, _, _, _ => .error .outOfFuel
  | fuel + 1, lex, i, acc =>
    if (tokAt lex i).kind = .Eof then
      .error (pErr lex i ("expecting '\x7d' before EOF"))
    else if is_punctuator lex i 125 then
      .ok (some (.CompoundStmt acc), i)
    else
      match statementF fuel lex i with
      | .error e => .error e
      | .ok (some s, i') => compLoopF fuel lex i' (acc ++ [s])
      | .ok (none, i') => .ok (none, i')

/-- `Parser::compound_statement`. -/
def compound_statementF (fuel : Nat) (lex : LexData) (i : Int) :
    Except PErr (Option Stmt × Int) :=
  if ¬ is_punctuator lex i 123 then
    .error (pErr lex i ("expecting '\x7b' to start a block"))
  else compLoopF fuel lex (i + 1) []

/-- The `while (is_punctuator('*')) next_token();` pointer-skipping loop of
`Parser::function_params` (the pointer markers are counted past, not
retained). -/
def skipPointersF : Nat → LexData → Int → Except PErr Int
  | 0, _, _ => .error .outOfFuel
  | fuel + 1, lex, i =>
    if is_punctuator lex i 42 then skipPointersF fuel lex (i + 1)
    else .ok i

/-- The `while (next_token().kind != Eof)` parameter loop of
`Parser::function_params`; reaching end of file returns a null params node. -/
def paramsLoopF : Nat → LexData → Int → List ParamNode →
    Except PErr (Option ParamsNode × Int)
  | 0, _, _, _ => .error .outOfFuel
  | fuel + 1, lex, i, ps =>
    let i := i + 1
    if (tokAt lex i).kind = .Eof then .ok (none, i)
    else if is_punctuator lex i 41 then .ok (some ⟨ps⟩, i)
    else if is_builtin_type lex i then
      let ty := (tokAt lex i).i
      match skipPointersF fuel lex (i + 1) with
      | .error e => .error e
      | .ok i =>
        if (tokAt lex i).kind = .Identifier then
          let nm := lex.id_text (tokAt lex i)
          let i := i + 1
          if is_punctuator lex i 41 then .ok (some ⟨ps ++ [⟨ty, nm⟩]⟩, i)
          else if ¬ is_punctuator lex i 44 then
            .error (pErr lex i ("expecting ',' or ')' after param name"))
          else paramsLoopF fuel lex i (ps ++ [⟨ty, nm⟩])
        else if is_punctuator lex i 41 then .ok (some ⟨ps ++ [⟨ty, []⟩]⟩, i)
        else if ¬ is_punctuator lex i 44 then
          .error (pErr lex i ("expecting ',', ')', or param name after param type"))
        else paramsLoopF fuel lex i (ps ++ [⟨ty, []⟩])
    else .error (pErr lex i ("expecting ')' or type"))

/-- `Parser::function_params`. -/
def function_paramsF (fuel : Nat) (lex : LexData) (i : Int) :
    Except PErr (Option ParamsNode × Int) :=
  let i := i + 1
  if ¬ is_punctuator lex i 40 then .error (pErr lex i ("expecting '('"))
  else paramsLoopF fuel lex i []

/-- The brace-depth scan of `Parser::function_body_fast`, returning the index
of the closing brace. -/
def fastBodyLoopF : Nat → LexData → Nat → Int → Except PErr Int
  | 0, _, _, _ => .error .outOfFuel
  | fuel + 1, lex, scope, i =>
    let i := i + 1
    if (tokAt lex i).kind = .Eof then
      .error (pErr lex i ("expecting '\x7d' before EOF"))
    else if is_punctuator lex i 125 then
      if scope = 0 then .ok i else fastBodyLoopF fuel lex (scope - 1) i
    else if is_punctuator lex i 123 then fastBodyLoopF fuel lex (scope + 1) i
    else fastBodyLoopF fuel lex scope i

/-- `Parser::function_body_fast` (phase 1): record only the `[beg_tok,
end_tok]` token span of the `\x7b \x7d` block; `lex_i` is the parser's
lex-result index. -/
def function_body_fastF (fuel : Nat) (lexI : Int) (lex : LexData) (i : Int) :
    Except PErr (BodyNode × Int) :=
  let i := i + 1
  if ¬ is_punctuator lex i 123 then .error (pErr lex i ("expecting '\x7b'"))
  else
    match fastBodyLoopF fuel lex 0 i with
    | .error e => .error e
    | .ok iEnd =>
      .ok ({ lex_i := lexI, beg_tok := i, end_tok := iEnd, block := none }, iEnd)

/-- `Parser::function_definition`. -/
def function_definitionF (fuel : Nat) (lexI : Int) (lex : LexData) (i : Int) :
    Except PErr (Option FunctionNode × Int) :=
  if is_builtin_type lex i then
    let ty := (tokAt lex i).i
    let i := i + 1
    if (tokAt lex i).kind ≠ .Identifier then
      .error (pErr lex i ("expecting identifier for function"))
    else
      let nm := lex.id_text (tokAt lex i)
      match function_paramsF fuel lex i with
      | .error e => .error e
      | .ok (none, i') => .ok (none, i')
      | .ok (some ps, i') =>
        match function_body_fastF fuel lexI lex i' with
        | .error e => .error e
        | .ok (b, i'') => .ok (some ⟨ty, nm, some ps, some b⟩, i'')
  else .ok (none, i)

/-- `Parser::dcl_seq` together with `Parser::dcl`: parse function definitions
until end of file, stopping silently at the first top-level construct that is
not a recognized function definition. -/
def dclSeqF : Nat → Int → LexData → Int → List FunctionNode →
    Except PErr (List FunctionNode)
  | 0, _, _, _, _ => .error .outOfFuel
  | fuel + 1, lexI, lex, i, acc =>
    let i := i + 1
    if (tokAt lex i).kind = .Eof then .ok acc
    else if is_builtin_type lex i then
      match function_definitionF fuel lexI lex i with
      | .error e => .error e
      | .ok (some f, i') => dclSeqF fuel lexI lex i' (acc ++ [f])
      | .ok (none, _) => .ok acc
    else .ok acc

/-- `Parser::parse` (phase 1): `goto_token(-1); dcl_seq();`. -/
def Parser.parseF (fuel : Nat) (lexI : Int) (lex : LexData) :
    Except PErr ParserData :=
  match dclSeqF fuel lexI lex (-1) [] with
  | .error e => .error e
  | .ok fns => .ok ⟨lex.fn, fns⟩

/-- `Parser::parse_function_body` (phase 2): `goto_token(f->body->beg_tok);
f->body->block = compound_statement();` on the given body node. -/
def Parser.parse_function_bodyF (fuel : Nat) (lex : LexData) (b : BodyNode) :
    Except PErr BodyNode :=
  match compound_statementF fuel lex b.beg_tok with
  | .error e => .error e
  | .ok (blk, _) => .ok { b with block := blk }

/-! ## Program store (`cppillr/program.h`) and evaluator (`cppillr/run.cpp`)

The store's two vectors are guarded by mutexes in the source; the quiesced
store the evaluator receives is modelled as the plain record below (see the
pool model further down for the concurrency claims). -/

/-- `class Program`. -/
structure Program where
  lex_data : List LexData
  parser_data : List ParserData

/-- `Program::add_lex`: append under lock and return the stable index. -/
def Program.add_lex (p : Program) (lex : LexData) : Nat × Program :=
  (p.lex_data.length, { p with lex_data := p.lex_data ++ [lex] })

/-- `Program::get_lex`: snapshot copy of the indexed lex result. -/
def Program.get_lex (p : Program) (i : Nat) : LexData :=
  p.lex_data.getD i default

/-- `Program::add_parser_data`. -/
def Program.add_parser_data (p : Program) (d : ParserData) : Program :=
  { p with parser_data := p.parser_data ++ [d] }

/-- `std::vector` indexing with an `int` index (out-of-range access is
undefined in C++ and never exercised by the pipeline; a default is returned
here). -/
def listGetIntD {α : Type} (l : List α) (i : Int) (d : α) : α :=
  if 0 ≤ i then l.getD i.toNat d else d

/-- The failure modes of `run::run_node` / `run::run`: a phase-2
`Parser::error` exit, the `error parsing %s() function body` exit, and the
undefined behaviour of dereferencing a null node pointer (reachable, see the
claims about the missing right-operand check). -/
inductive RunErr where
  | parse (e : PErr)
  | parseBodyFailed
  | crash
deriving DecidableEq, Repr

mutual

/-- `run::run_node`, expression cases (`UnaryExpr`, `BinExpr`, `Literal`),
acting on `VM::stack` (a `std::vector<int>`, listed bottom first, so
`back()` is the last element and `stack[0]` the head). -/
def run.run_nodeE : Expr → List Int → Option (List Int)
  | .UnaryExpr op operand, st =>
    match run.run_nodeEO operand st with
    | none => none
    | some st =>
      if st.isEmpty then some st
      else
        let b := st.getLastD 0
        if op = 42 ∨ op = 38 ∨ op = 43 then some st
        else if op = 45 then some (st.dropLast ++ [-b])
        else if op = 33 then some (st.dropLast ++ [if b = 0 then 1 else 0])
        else if op = 126 then some (st.dropLast ++ [-b - 1])
        else some st
  | .BinExpr op lhs rhs, st =>
    match run.run_nodeEO lhs st with
    | none => none
    | some st =>
      match run.run_nodeEO rhs st with
      | none => none
      | some st =>
        if 2 ≤ st.length then
          let x := st.getD (st.length - 2) 0
          let y := st.getD (st.length - 1) 0
          let x' := if op = 43 then x + y
                    else if op = 45 then x - y
                    else if op = 42 then x * y
                    else if op = 47 then Int.tdiv x y
                    else if op = 37 then Int.tmod x y
                    else x
          some ((st.dropLast).dropLast ++ [x'])
        else some st
  | .Literal v, st => some (st ++ [v])

/-- `run_node` invoked through a possibly-null `Expr*` child pointer:
dereferencing a null pointer is the `none` (undefined behaviour) outcome. -/
def run.run_nodeEO : Option Expr → List Int → Option (List Int)
  | none, _ => none
  | some e, st => run.run_nodeE e st

end

mutual

/-- `run::run_node`, statement cases (`Return`, `CompoundStmt`):  `Return`
evaluates its expression if present; `CompoundStmt` runs every statement in
order. -/
def run.run_nodeS : Stmt → List Int → Option (List Int)
  | .Return e, st =>
    match e with
    | none => some st
    | some e => run.run_nodeE e st
  | .CompoundStmt ss, st => run.run_nodeSs ss st

/-- The `for (Stmt* stmt : e->stmts)` loop of the `CompoundStmt` case. -/
def run.run_nodeSs : List Stmt → List Int → Option (List Int)
  | [], st => some st
  | s :: ss, st =>
    match run.run_nodeS s st with
    | none => none
    | some st => run.run_nodeSs ss st

end

instance : Inhabited FunctionNode := ⟨⟨0, [], none, none⟩⟩

/-- The `Function` case of `run::run_node`, up to running the block: fetch
the originating lex result by the stored index, and if the body was only
fast-parsed run phase 2 on it; a body that is already parsed is left exactly
as it is.  A null phase-2 result is the `error parsing %s() function body`
exit; a null `f->body` would be a null dereference. -/
def run.ensure_parsedF (fuel : Nat) (p : Program) (f : FunctionNode) :
    Except RunErr FunctionNode :=
  match f.body with
  | none => .error .crash
  | some b =>
    let lexd := listGetIntD p.lex_data b.lex_i default
    match b.block with
    | some _ => .ok f
    | none =>
      match Parser.parse_function_bodyF fuel lexd b with
      | .error e => .error (.parse e)
      | .ok b' =>
        match b'.block with
        | none => .error .parseBodyFailed
        | some _ => .ok { f with body := some b' }

/-- The full `Function` case of `run::run_node`: ensure the body is parsed,
then run the block's statements on the VM stack. -/
def run.run_nodeF (fuel : Nat) (p : Program) (f : FunctionNode)
    (st : List Int) : Except RunErr (List Int) :=
  match run.ensure_parsedF fuel p f with
  | .error e => .error e
  | .ok f' =>
    match f'.body with
    | none => .error .crash
    | some b =>
      match b.block with
      | none => .error .crash
      | some blk =>
        match run.run_nodeS blk st with
        | none => .error .crash
        | some st' => .ok st'

/-- The `main`-candidate search of `run::run` (all files' parse results, in
store order). -/
def run.candidates (p : Program) : List FunctionNode :=
  p.parser_data.foldl
    (fun acc d => acc ++ d.functions.filter (fun f => f.name = strLN ("main")))
    []

/-- `run::run`: search `main`, evaluate it on a fresh VM, return the exit
status.  `ret_value` starts at `1`; with no candidate or several candidates
it is returned unchanged; otherwise it becomes `vm.stack[0]` (`0` if the
stack is empty). -/
def run.runF (fuel : Nat) (p : Program) : Except RunErr Int :=
  let cs := run.candidates p
  if cs.isEmpty then .ok 1
  else if cs.length ≠ 1 then .ok 1
  else
    match run.run_nodeF fuel p (cs.headD default) [] with
    | .error e => .error e
    | .ok st =>
      match st with
      | [] => .ok 0
      | v :: _ => .ok v

/-- Observer used by the checked properties: the VM stack left by executing
`main`'s body — the state from which `run::run` reads `stack[0]` — when
exactly one candidate exists and evaluation succeeds. -/
def run.mainStackF (fuel : Nat) (p : Program) : Option (List Int) :=
  let cs := run.candidates p
  if cs.isEmpty then none
  else if cs.length ≠ 1 then none
  else
    match run.run_nodeF fuel p (cs.headD default) [] with
    | .error _ => none
    | .ok st => some st

/-- Pipeline-level errors. -/
inductive PipeErr where
  | lexE (e : LexErr)
  | parseE (e : PErr)
  | runE (e : RunErr)
deriving DecidableEq, Repr

/-- The single-file `run`-command pipeline of `cppillr.cpp`
(`run_with_options`): the lex task, its dependent phase-1 parse task (using
the store's index handle and snapshot copy), then the evaluator. -/
def pipelineF (fuel : Nat) (src : List Nat) : Except PipeErr Int :=
  match Lexer.lexF fuel "" src with
  | .error e => .error (.lexE e)
  | .ok lexd =>
    let ip := Program.add_lex ⟨[], []⟩ lexd
    let data := ip.2.get_lex ip.1
    match Parser.parseF fuel (Int.ofNat ip.1) data with
    | .error e => .error (.parseE e)
    | .ok pd =>
      match run.runF fuel (ip.2.add_parser_data pd) with
      | .error e => .error (.runE e)
      | .ok v => .ok v

/-- The pipeline observed at the VM stack of `main` (see `run.mainStackF`). -/
def pipelineStackF (fuel : Nat) (src : List Nat) : Option (List Int) :=
  match Lexer.lexF fuel "" src with
  | .error _ => none
  | .ok lexd =>
    let ip := Program.add_lex ⟨[], []⟩ lexd
    let data := ip.2.get_lex ip.1
    match Parser.parseF fuel (Int.ofNat ip.1) data with
    | .error _ => none
    | .ok pd => run.mainStackF fuel (ip.2.add_parser_data pd)

/-! ## Task scheduler (`utils/thread_pool.h`)

The pool is modelled as a labelled transition system whose atomic steps are
exactly the critical sections of the source, all guarded by the single
`m_mutex`: `execute` pushes one task onto `m_work`; a worker's dequeue
critical section pops one task and increments `m_doingWork` in the same
section; a worker's completion critical section decrements `m_doingWork` and
notifies `m_cvWait`.  `enqueued`/`completed` count all `execute` calls and
all finished tasks — including tasks enqueued by running tasks, which appear
as ordinary `execute` steps interleaved between a `start` and its `finish`.
The model covers the working phase (`m_running == true`); `join_all` is the
distinct teardown operation. -/

/-- The pool state visible under `m_mutex`: queue length (`m_work.size()`),
`m_doingWork`, plus the two counting observers. -/
structure PoolSt where
  queue : Nat
  doing : Nat
  enqueued : Nat
  completed : Nat
deriving DecidableEq, Repr

/-- One atomic (lock-protected) step of the pool. -/
inductive PoolStep : PoolSt → PoolSt → Prop where
  | execute (s : PoolSt) :
      PoolStep s { s with queue := s.queue + 1, enqueued := s.enqueued + 1 }
  | start (s : PoolSt) (h : 0 < s.queue) :
      PoolStep s { s with queue := s.queue - 1, doing := s.doing + 1 }
  | finish (s : PoolSt) (h : 0 < s.doing) :
      PoolStep s { s with doing := s.doing - 1, completed := s.completed + 1 }

/-- States reachable from the freshly constructed pool. -/
inductive PoolReach : PoolSt → Prop where
  | init : PoolReach ⟨0, 0, 0, 0⟩
  | step {s s' : PoolSt} : PoolReach s → PoolStep s s' → PoolReach s'

/-- The predicate `wait_all` waits on under `m_mutex` (with `m_running`
true): `m_work.empty() && m_doingWork == 0`, evaluated atomically at the
moment the wait returns. -/
def waitAllReturns (s : PoolSt) : Prop := s.queue = 0 ∧ s.doing = 0

/-! ## Concrete inputs and their staged lexer/parser outputs

The end-to-end properties are checked on concrete sources.  Because kernel
reduction does not share the lexer's output across its many uses inside the
parser, each stage's output is recorded as an explicit literal and the stages
are chained by equations (each equation is checked by the kernel against the
executable definitions above). -/

instance {ε α : Type} [DecidableEq ε] [DecidableEq α] : DecidableEq (Except ε α)
  | .ok a, .ok b => by
    cases h : decide (a = b) with
    | true => exact isTrue (by simp_all)
    | false => exact isFalse (by simp_all)
  | .ok _, .error _ => isFalse (by intro h; cases h)
  | .error _, .ok _ => isFalse (by intro h; cases h)
  | .error a, .error b => by
    cases h : decide (a = b) with
    | true => exact isTrue (by simp_all)
    | false => exact isFalse (by simp_all)

/-- `int main(){ return 10+4*2; }` (the braces are written `\x7b`/`\x7d`). -/
def srcMain1042 : List Nat := strLN ("int main()\x7b return 10+4*2; \x7d")

/-- `int main(){ return 1; return 2; }`. -/
def srcTwoReturns : List Nat := strLN ("int main()\x7b return 1; return 2; \x7d")

/-- `int f(int, int x){ }`: a parameter list whose unnamed parameter is not
last. -/
def srcUnnamedParam : List Nat := strLN ("int f(int, int x)\x7b \x7d")

/-- `int main(){ return 1+; }`: an additive operator with no right operand. -/
def srcOnePlus : List Nat := strLN ("int main()\x7b return 1+; \x7d")

/-- The lexer's output on `srcMain1042`. -/
def lexMain1042 : LexData :=
  ⟨"", [109, 97, 105, 110, 49, 48, 52, 50], [],
  [⟨.Keyword, ⟨1, 4⟩, 11, 0⟩,
   ⟨.Identifier, ⟨1, 9⟩, 0, 4⟩,
   ⟨.Punctuator, ⟨1, 9⟩, 40, 0⟩,
   ⟨.Punctuator, ⟨1, 10⟩, 41, 0⟩,
   ⟨.Punctuator, ⟨1, 11⟩, 123, 0⟩,
   ⟨.Keyword, ⟨1, 19⟩, 14, 0⟩,
   ⟨.NumericConstant, ⟨1, 22⟩, 4, 6⟩,
   ⟨.Punctuator, ⟨1, 23⟩, 43, 0⟩,
   ⟨.NumericConstant, ⟨1, 24⟩, 6, 7⟩,
   ⟨.Punctuator, ⟨1, 25⟩, 42, 0⟩,
   ⟨.NumericConstant, ⟨1, 26⟩, 7, 8⟩,
   ⟨.Punctuator, ⟨1, 26⟩, 59, 0⟩,
   ⟨.Punctuator, ⟨1, 28⟩, 125, 0⟩,
   ⟨.Eof, ⟨1, 28⟩, 0, 0⟩], 28⟩

/-- The lexer's output on `srcTwoReturns`. -/
def lexTwoReturns : LexData :=
  ⟨"", [109, 97, 105, 110, 49, 50], [],
  [⟨.Keyword, ⟨1, 4⟩, 11, 0⟩,
   ⟨.Identifier, ⟨1, 9⟩, 0, 4⟩,
   ⟨.Punctuator, ⟨1, 9⟩, 40, 0⟩,
   ⟨.Punctuator, ⟨1, 10⟩, 41, 0⟩,
   ⟨.Punctuator, ⟨1, 11⟩, 123, 0⟩,
   ⟨.Keyword, ⟨1, 19⟩, 14, 0⟩,
   ⟨.NumericConstant, ⟨1, 21⟩, 4, 5⟩,
   ⟨.Punctuator, ⟨1, 21⟩, 59, 0⟩,
   ⟨.Keyword, ⟨1, 29⟩, 14, 0⟩,
   ⟨.NumericConstant, ⟨1, 31⟩, 5, 6⟩,
   ⟨.Punctuator, ⟨1, 31⟩, 59, 0⟩,
   ⟨.Punctuator, ⟨1, 33⟩, 125, 0⟩,
   ⟨.Eof, ⟨1, 33⟩, 0, 0⟩], 33⟩

/-- The lexer's output on `srcUnnamedParam`. -/
def lexUnnamedParam : LexData :=
  ⟨"", [102, 120], [],
  [⟨.Keyword, ⟨1, 4⟩, 11, 0⟩,
   ⟨.Identifier, ⟨1, 6⟩, 0, 1⟩,
   ⟨.Punctuator, ⟨1, 6⟩, 40, 0⟩,
   ⟨.Keyword, ⟨1, 10⟩, 11, 0⟩,
   ⟨.Punctuator, ⟨1, 10⟩, 44, 0⟩,
   ⟨.Keyword, ⟨1, 15⟩, 11, 0⟩,
   ⟨.Identifier, ⟨1, 17⟩, 1, 2⟩,
   ⟨.Punctuator, ⟨1, 17⟩, 41, 0⟩,
   ⟨.Punctuator, ⟨1, 18⟩, 123, 0⟩,
   ⟨.Punctuator, ⟨1, 20⟩, 125, 0⟩,
   ⟨.Eof, ⟨1, 20⟩, 0, 0⟩], 20⟩

/-- The lexer's output on `srcOnePlus`. -/
def lexOnePlus : LexData :=
  ⟨"", [109, 97, 105, 110, 49], [],
  [⟨.Keyword, ⟨1, 4⟩, 11, 0⟩,
   ⟨.Identifier, ⟨1, 9⟩, 0, 4⟩,
   ⟨.Punctuator, ⟨1, 9⟩, 40, 0⟩,
   ⟨.Punctuator, ⟨1, 10⟩, 41, 0⟩,
   ⟨.Punctuator, ⟨1, 11⟩, 123, 0⟩,
   ⟨.Keyword, ⟨1, 19⟩, 14, 0⟩,
   ⟨.NumericConstant, ⟨1, 21⟩, 4, 5⟩,
   ⟨.Punctuator, ⟨1, 22⟩, 43, 0⟩,
   ⟨.Punctuator, ⟨1, 22⟩, 59, 0⟩,
   ⟨.Punctuator, ⟨1, 24⟩, 125, 0⟩,
   ⟨.Eof, ⟨1, 24⟩, 0, 0⟩], 24⟩

/-- Phase-1 output on `lexMain1042`. -/
def pdMain1042 : ParserData :=
  ⟨"", [⟨key_int, strLN ("main"), some ⟨[]⟩, some ⟨0, 4, 12, none⟩⟩]⟩

/-- Phase-1 output on `lexTwoReturns`. -/
def pdTwoReturns : ParserData :=
  ⟨"", [⟨key_int, strLN ("main"), some ⟨[]⟩, some ⟨0, 4, 11, none⟩⟩]⟩

/-- Phase-1 output on `lexUnnamedParam`: both parameters are accepted, the
first with an empty name. -/
def pdUnnamedParam : ParserData :=
  ⟨"", [⟨key_int, strLN ("f"),
    some ⟨[⟨key_int, []⟩, ⟨key_int, strLN ("x")⟩]⟩, some ⟨0, 8, 9, none⟩⟩]⟩

/-- Phase-1 output on `lexOnePlus`. -/
def pdOnePlus : ParserData :=
  ⟨"", [⟨key_int, strLN ("main"), some ⟨[]⟩, some ⟨0, 4, 9, none⟩⟩]⟩

/-! ## Claim-side vocabulary for the grammar/precedence property

These definitions only *state* the precedence and associativity property of
the expression grammar; the parser they are compared against is the embedding
above. -/

/-- A multiplicative chain of single-digit numeric atoms:
`d0 (op d)*` with `op ∈ \x7b * / % \x7d`. -/
structure MulChain where
  d0 : Nat
  rest : List (Nat × Nat)

/-- `op` is one of the multiplicative operators `* / %`. -/
def mulOpOK (op : Nat) : Prop := op = 42 ∨ op = 47 ∨ op = 37

/-- `op` is one of the additive operators `+ -`. -/
def addOpOK (op : Nat) : Prop := op = 43 ∨ op = 45

/-- At token index `i` sits a single-digit numeric constant whose arena text
is the digit `d` at arena offset `a`. -/
def numTokAt (lex : LexData) (i : Int) (a : Nat) (d : Nat) : Prop :=
  (tokAt lex i).kind = .NumericConstant ∧ (tokAt lex i).i = a ∧
  (tokAt lex i).j = a + 1 ∧ a < lex.ids.length ∧
  lex.ids.getD a 0 = 48 + d ∧ d < 10

/-- The token sequence `(op d)*` of a multiplicative chain's tail, starting
at token index `i` with arena offset `a`. -/
def MulSeg (lex : LexData) : Int → Nat → List (Nat × Nat) → Prop
  | _, _, [] => True
  | i, a, (op, d) :: t =>
    mulOpOK op ∧ (tokAt lex i).kind = .Punctuator ∧ (tokAt lex i).i = op ∧
    numTokAt lex (i + 1) a d ∧ MulSeg lex (i + 2) (a + 1) t

/-- The token sequence of a whole multiplicative chain. -/
def GrpSeg (lex : LexData) (i : Int) (a : Nat) (g : MulChain) : Prop :=
  numTokAt lex i a g.d0 ∧ MulSeg lex (i + 1) (a + 1) g.rest

/-- Number of tokens of a multiplicative chain. -/
def grpTokLen (g : MulChain) : Nat := 1 + 2 * g.rest.length

/-- The token sequence `(op chain)*` of the additive tail. -/
def AddSeg (lex : LexData) : Int → Nat → List (Nat × MulChain) → Prop
  | _, _, [] => True
  | i, a, (op, g) :: t =>
    addOpOK op ∧ (tokAt lex i).kind = .Punctuator ∧ (tokAt lex i).i = op ∧
    GrpSeg lex (i + 1) a g ∧
    AddSeg lex (i + 1 + grpTokLen g) (a + 1 + g.rest.length) t

/-- Number of tokens of the additive tail. -/
def addSegTokLen : List (Nat × MulChain) → Nat
  | [] => 0
  | (_, g) :: t => 1 + grpTokLen g + addSegTokLen t

/-- The token after index `i` is not one of the five expression operators
(so both parsing loops stop there). -/
def notExprOp (lex : LexData) (i : Int) : Prop :=
  ¬ is_punctuator lex i 42 ∧ ¬ is_punctuator lex i 47 ∧
  ¬ is_punctuator lex i 37 ∧ ¬ is_punctuator lex i 43 ∧
  ¬ is_punctuator lex i 45

/-- The token after index `i` is not a multiplicative operator (so the
multiplicative loop stops there). -/
def notMulOp (lex : LexData) (i : Int) : Prop :=
  ¬ is_punctuator lex i 42 ∧ ¬ is_punctuator lex i 47 ∧ ¬ is_punctuator lex i 37

/-- The fuel that suffices for the additive tail. -/
def addFuelB : List (Nat × MulChain) → Nat
  | [] => 1
  | (_, g) :: t => g.rest.length + 3 + addFuelB t

/-- The fuel that suffices for a whole rendered expression. -/
def exprFuelB (g0 : MulChain) (gs : List (Nat × MulChain)) : Nat :=
  g0.rest.length + 4 + addFuelB gs

/-- The *left-associative, multiplicative-binds-tighter* tree the grammar
prescribes for a multiplicative chain. -/
def mulTree (g : MulChain) : Expr :=
  g.rest.foldl (fun e p => .BinExpr p.1 (some e) (some (.Literal (p.2 : Int))))
    (.Literal (g.d0 : Int))

/-- The prescribed tree for a whole additive expression. -/
def addTree (g0 : MulChain) (gs : List (Nat × MulChain)) : Expr :=
  gs.foldl (fun e p => .BinExpr p.1 (some e) (some (mulTree p.2))) (mulTree g0)

/-- Ordinary integer arithmetic for a multiplicative operator
(C `/` and `%` truncate toward zero). -/
def mulApply (op : Nat) (x y : Int) : Int :=
  if op = 42 then x * y else if op = 47 then Int.tdiv x y else Int.tmod x y

/-- Ordinary integer arithmetic for an additive operator. -/
def addApply (op : Nat) (x y : Int) : Int := if op = 43 then x + y else x - y

/-- The reference value of a multiplicative chain, folded left to right. -/
def mulVal (g : MulChain) : Int :=
  g.rest.foldl (fun v p => mulApply p.1 v (p.2 : Int)) (g.d0 : Int)

/-- The reference value of an additive expression, folded left to right. -/
def addVal (g0 : MulChain) (gs : List (Nat × MulChain)) : Int :=
  gs.foldl (fun v p => addApply p.1 v (mulVal p.2)) (mulVal g0)

/-! ## Claim-side vocabulary for the punctuator look-ahead property -/

/-- The dispatch-state characters for which `Lexer::process` reads one
look-ahead character before deciding the token. -/
def lookaheadStarter (c : Nat) : Prop :=
  c = 43 ∨ c = 45 ∨ c = 47 ∨ c = 38 ∨ c = 124 ∨ c = 58 ∨ c = 94 ∨ c = 37 ∨
  c = 42 ∨ c = 33 ∨ c = 126 ∨ c = 60 ∨ c = 62 ∨ c = 61

/-- `d` extends `c` to one of the grammar's two-character punctuators
(`++ -- += -= -> /= && || :: ^= %= *= != <<  >> <= >= ==`), following the
look-ahead cases of the source. -/
def extendsOp (c d : Nat) : Prop :=
  (c = 43 ∧ (d = 43 ∨ d = 61)) ∨
  (c = 45 ∧ (d = 45 ∨ d = 61 ∨ d = 62)) ∨
  (c = 47 ∧ d = 61) ∨
  ((c = 38 ∨ c = 124 ∨ c = 58) ∧ d = c) ∨
  ((c = 94 ∨ c = 37 ∨ c = 42 ∨ c = 33 ∨ c = 126) ∧ d = 61) ∨
  ((c = 60 ∨ c = 62 ∨ c = 61) ∧ (d = c ∨ d = 61))

/-- `c` = `/` and `d` starts a comment (`//` or `/*`): the look-ahead leaves
for the comment states instead of emitting a punctuator. -/
def startsComment (c d : Nat) : Prop := c = 47 ∧ (d = 47 ∨ d = 42)

/-- A hand-written lex result for the token stream `1 + 2 * 3`, used to
instantiate the precedence property on a concrete input. -/
def lexTiny : LexData :=
  ⟨"", [49, 50, 51], [],
  [⟨.NumericConstant, ⟨1, 1⟩, 0, 1⟩,
   ⟨.Punctuator, ⟨1, 2⟩, 43, 0⟩,
   ⟨.NumericConstant, ⟨1, 3⟩, 1, 2⟩,
   ⟨.Punctuator, ⟨1, 4⟩, 42, 0⟩,
   ⟨.NumericConstant, ⟨1, 5⟩, 2, 3⟩], 5⟩

/-! # Theorems -/

theorem lex_srcMain1042 : Lexer.lexF 100 "" srcMain1042 = .ok lexMain1042 := by
  decide

theorem parse_srcMain1042 : Parser.parseF 100 0 lexMain1042 = .ok pdMain1042 :=
  rfl

theorem run_srcMain1042 : run.runF 100 ⟨[lexMain1042], [pdMain1042]⟩ = .ok 18 := by
  decide

/-- Chaining a lex result, a phase-1 result and an evaluation result through
the single-file pipeline. -/
theorem pipeline_staged (fuel : Nat) (src : List Nat) (d : LexData)
    (pd : ParserData) (r : Int)
    (h1 : Lexer.lexF fuel "" src = .ok d)
    (h2 : Parser.parseF fuel 0 d = .ok pd)
    (h3 : run.runF fuel ⟨[d], [pd]⟩ = .ok r) :
    pipelineF fuel src = .ok r := by
  unfold pipelineF
  rw [h1]
  have e1 : Program.add_lex ⟨[], []⟩ d = (0, ⟨[d], []⟩) := rfl
  simp only [e1]
  have e2 : (((0 : Nat), (⟨[d], []⟩ : Program)).2).get_lex
      ((0 : Nat), (⟨[d], []⟩ : Program)).1 = d := rfl
  simp only [e2]
  have e3 : Int.ofNat ((0 : Nat), (⟨[d], []⟩ : Program)).1 = 0 := rfl
  simp only [e3]
  rw [h2]
  have e4 : Program.add_parser_data (((0 : Nat), (⟨[d], []⟩ : Program)).2) pd =
      ⟨[d], [pd]⟩ := rfl
  simp only [e4]
  rw [h3]

/-- The same chaining for the VM-stack observer. -/
theorem pipelineStack_staged (fuel : Nat) (src : List Nat) (d : LexData)
    (pd : ParserData) (st : List Int)
    (h1 : Lexer.lexF fuel "" src = .ok d)
    (h2 : Parser.parseF fuel 0 d = .ok pd)
    (h3 : run.mainStackF fuel ⟨[d], [pd]⟩ = some st) :
    pipelineStackF fuel src = some st := by
  unfold pipelineStackF
  rw [h1]
  have e1 : Program.add_lex ⟨[], []⟩ d = (0, ⟨[d], []⟩) := rfl
  simp only [e1]
  have e2 : (((0 : Nat), (⟨[d], []⟩ : Program)).2).get_lex
      ((0 : Nat), (⟨[d], []⟩ : Program)).1 = d := rfl
  simp only [e2]
  have e3 : Int.ofNat ((0 : Nat), (⟨[d], []⟩ : Program)).1 = 0 := rfl
  simp only [e3]
  rw [h2]
  have e4 : Program.add_parser_data (((0 : Nat), (⟨[d], []⟩ : Program)).2) pd =
      ⟨[d], [pd]⟩ := rfl
  simp only [e4]
  rw [h3]

theorem lex_srcTwoReturns : Lexer.lexF 100 "" srcTwoReturns = .ok lexTwoReturns := by
  decide

theorem parse_srcTwoReturns :
    Parser.parseF 100 0 lexTwoReturns = .ok pdTwoReturns := rfl

theorem run_srcTwoReturns :
    run.runF 100 ⟨[lexTwoReturns], [pdTwoReturns]⟩ = .ok 1 := by decide

theorem stack_srcTwoReturns :
    run.mainStackF 100 ⟨[lexTwoReturns], [pdTwoReturns]⟩ = some [1, 2] := by
  decide

-- ### C2

theorem c2_counterexample :
    pipelineF 100 srcTwoReturns = Except.ok 1 ∧
    pipelineStackF 100 srcTwoReturns = some [1, 2] ∧
    ([1, 2] : List Int).getLast? = some 2 ∧ (1 : Int) ≠ 2 :=
  ⟨pipeline_staged 100 srcTwoReturns lexTwoReturns pdTwoReturns 1
      lex_srcTwoReturns parse_srcTwoReturns run_srcTwoReturns,
   pipelineStack_staged 100 srcTwoReturns lexTwoReturns pdTwoReturns [1, 2]
      lex_srcTwoReturns parse_srcTwoReturns stack_srcTwoReturns,
   rfl, by decide⟩

theorem c2_exit_is_first_pushed (fuel : Nat) (p : Program) (st : List Int)
    (h : run.mainStackF fuel p = some st) :
    run.runF fuel p = Except.ok (st.headD 0) := by
  simp only [run.mainStackF] at h
  simp only [run.runF]
  by_cases h1 : (run.candidates p).isEmpty = true
  · rw [if_pos h1] at h; cases h
  · rw [if_neg h1] at h
    rw [if_neg h1]
    by_cases h2 : (run.candidates p).length ≠ 1
    · rw [if_pos h2] at h; cases h
    · rw [if_neg h2] at h
      rw [if_neg h2]
      rcases hr : run.run_nodeF fuel p ((run.candidates p).headD default) []
        with e | s
      · rw [hr] at h; cases h
      · rw [hr] at h
        injection h with h
        subst h
        cases s <;> rfl

theorem c2_exit_witness :
    run.runF 1 (⟨[], [⟨"", [⟨key_int, strLN ("main"), none,
      some ⟨0, 0, 0, some (.CompoundStmt [.Return (some (.Literal 7))])⟩⟩]⟩]⟩ :
      Program) = Except.ok 7 :=
  c2_exit_is_first_pushed 1 _ [7] rfl

-- ### C3
theorem stack_onlyCE : run.run_nodeS (.CompoundStmt [.Return (some (.Literal 1)),
      .Return (some (.Literal 2))]) [] = some [1, 2] := rfl

theorem c3_counterexample :
    pipelineStackF 100 srcTwoReturns = some [1, 2] ∧
    run.run_nodeS (.CompoundStmt [.Return (some (.Literal 1)),
      .Return (some (.Literal 2))]) [] = some [1, 2] ∧
    some [1, 2] ≠ some ([1] : List Int) :=
  ⟨pipelineStack_staged 100 srcTwoReturns lexTwoReturns pdTwoReturns [1, 2]
      lex_srcTwoReturns parse_srcTwoReturns stack_srcTwoReturns,
   rfl, by decide⟩

theorem c3_return_does_not_stop_compound :
    (∀ (ss ts : List Stmt) (st : List Int),
      run.run_nodeSs (ss ++ ts) st =
        (run.run_nodeSs ss st).bind (run.run_nodeSs ts)) ∧
    (∀ (e : Option Expr) (ts : List Stmt) (st : List Int),
      run.run_nodeS (.CompoundStmt (.Return e :: ts)) st =
        (run.run_nodeS (.Return e) st).bind fun st' =>
          run.run_nodeSs ts st') := by
  have happ : ∀ (ss ts : List Stmt) (st : List Int),
      run.run_nodeSs (ss ++ ts) st =
        (run.run_nodeSs ss st).bind (run.run_nodeSs ts) := by
    intro ss
    induction ss with
    | nil => intro ts st; rfl
    | cons s ss ih =>
      intro ts st
      simp only [List.cons_append, run.run_nodeSs]
      cases run.run_nodeS s st with
      | none => rfl
      | some st' => simp [ih]
  refine ⟨happ, fun e ts st => ?_⟩
  simp only [run.run_nodeS, run.run_nodeSs]
  cases e with
  | none => rfl
  | some e =>
    cases hr : run.run_nodeE e st <;> simp [hr]

-- ### C4
theorem c4_no_or_multiple_main (fuel : Nat) (p : Program)
    (h : (run.candidates p).length ≠ 1) :
    run.runF fuel p = Except.ok 1 := by
  unfold run.runF
  rcases hc : run.candidates p with _ | ⟨a, _ | ⟨b, t⟩⟩
  · rfl
  · rw [hc] at h; simp at h
  · simp

theorem c4_witness :
    run.runF 1 ⟨[], []⟩ = Except.ok 1 ∧
    run.runF 1 ⟨[], [⟨"", [⟨key_int, strLN ("main"), none, none⟩,
      ⟨key_int, strLN ("main"), none, none⟩]⟩]⟩ = Except.ok 1 :=
  ⟨c4_no_or_multiple_main 1 _ (by decide), c4_no_or_multiple_main 1 _ (by decide)⟩

-- ### C9
theorem c9_wait_all_drains (s : PoolSt) (h : PoolReach s) :
    s.enqueued = s.completed + s.queue + s.doing ∧
      (waitAllReturns s → s.completed = s.enqueued) := by
  have inv : s.enqueued = s.completed + s.queue + s.doing := by
    induction h with
    | init => rfl
    | step hr hs ih => cases hs <;> simp_all <;> omega
  refine ⟨inv, fun hw => ?_⟩
  obtain ⟨hq, hd⟩ := hw
  omega

theorem c9_witness :
    (1 : Nat) = 1 + 0 + 0 ∧ (waitAllReturns ⟨0, 0, 1, 1⟩ → (1 : Nat) = 1) :=
  c9_wait_all_drains ⟨0, 0, 1, 1⟩
    (.step (.step (.step .init (.execute _)) (.start _ (by decide)))
      (.finish _ (by decide)))

-- ### C5
theorem ensure_parsed_of_parsed (fuel : Nat) (p : Program) (f : FunctionNode)
    (b : BodyNode) (blk : Stmt) (hb : f.body = some b)
    (hblk : b.block = some blk) :
    run.ensure_parsedF fuel p f = Except.ok f := by
  simp only [run.ensure_parsedF, hb, hblk]

theorem c5_phase2_once_idempotent :
    (∀ (fuel : Nat) (p : Program) (f : FunctionNode) (b : BodyNode)
       (blk : Stmt), f.body = some b → b.block = some blk →
       run.ensure_parsedF fuel p f = Except.ok f) ∧
    (∀ (fuel fuel' : Nat) (p : Program) (f f' : FunctionNode),
       run.ensure_parsedF fuel p f = Except.ok f' →
       run.ensure_parsedF fuel' p f' = Except.ok f') := by
  refine ⟨fun fuel p f b blk hb hblk => ensure_parsed_of_parsed fuel p f b blk hb hblk,
    fun fuel fuel' p f f' h => ?_⟩
  rcases hb : f.body with _ | b
  · simp only [run.ensure_parsedF, hb] at h; cases h
  · rcases hbl : b.block with _ | blk
    · simp only [run.ensure_parsedF, hb, hbl] at h
      rcases hp : Parser.parse_function_bodyF fuel
          (listGetIntD p.lex_data b.lex_i default) b with e | b'
      · simp only [hp] at h; cases h
      · simp only [hp] at h
        rcases hb2 : b'.block with _ | blk'
        · simp only [hb2] at h; cases h
        · simp only [hb2] at h
          injection h with h
          subst h
          exact ensure_parsed_of_parsed fuel' p _ b' blk' rfl hb2
    · simp only [run.ensure_parsedF, hb, hbl] at h
      injection h with h
      subst h
      exact ensure_parsed_of_parsed fuel' p _ b blk hb hbl

theorem c5_witness :
    run.ensure_parsedF 1 ⟨[], []⟩ ⟨key_int, strLN ("main"), none,
      some ⟨0, 0, 0, some (.CompoundStmt [])⟩⟩ = Except.ok ⟨key_int,
      strLN ("main"), none, some ⟨0, 0, 0, some (.CompoundStmt [])⟩⟩ ∧
    run.ensure_parsedF 2 ⟨[], []⟩ ⟨key_int, strLN ("main"), none,
      some ⟨0, 0, 0, some (.CompoundStmt [])⟩⟩ = Except.ok ⟨key_int,
      strLN ("main"), none, some ⟨0, 0, 0, some (.CompoundStmt [])⟩⟩ :=
  ⟨c5_phase2_once_idempotent.1 1 _ _ _ _ rfl rfl,
   c5_phase2_once_idempotent.2 1 2 _ _ _
     (c5_phase2_once_idempotent.1 1 _ _ _ _ rfl rfl)⟩

-- ### C10
theorem run_srcOnePlus :
    run.runF 100 ⟨[lexOnePlus], [pdOnePlus]⟩ = .error .crash := by decide

theorem pipeline_staged_res (fuel : Nat) (src : List Nat) (d : LexData)
    (pd : ParserData)
    (h1 : Lexer.lexF fuel "" src = .ok d)
    (h2 : Parser.parseF fuel 0 d = .ok pd) :
    pipelineF fuel src = (match run.runF fuel ⟨[d], [pd]⟩ with
      | .error e => .error (.runE e) | .ok v => .ok v) := by
  unfold pipelineF
  rw [h1]
  have e1 : Program.add_lex ⟨[], []⟩ d = (0, ⟨[d], []⟩) := rfl
  simp only [e1]
  have e2 : (((0 : Nat), (⟨[d], []⟩ : Program)).2).get_lex
      ((0 : Nat), (⟨[d], []⟩ : Program)).1 = d := rfl
  simp only [e2]
  have e3 : Int.ofNat ((0 : Nat), (⟨[d], []⟩ : Program)).1 = 0 := rfl
  simp only [e3]
  rw [h2]
  have e4 : Program.add_parser_data (((0 : Nat), (⟨[d], []⟩ : Program)).2) pd =
      ⟨[d], [pd]⟩ := rfl
  simp only [e4]

theorem lex_srcOnePlus : Lexer.lexF 100 "" srcOnePlus = .ok lexOnePlus := by
  decide

theorem parse_srcOnePlus : Parser.parseF 100 0 lexOnePlus = .ok pdOnePlus := rfl

theorem c10_null_rhs_crash :
    compound_statementF 100 lexOnePlus 4 =
      .ok (some (.CompoundStmt [.Return (some (.BinExpr 43
        (some (.Literal 1)) none))]), 9) ∧
    run.run_nodeE (.BinExpr 43 (some (.Literal 1)) none) [] = none ∧
    pipelineF 100 srcOnePlus = .error (.runE .crash) := by
  refine ⟨rfl, rfl, ?_⟩
  rw [pipeline_staged_res 100 srcOnePlus lexOnePlus pdOnePlus
    lex_srcOnePlus parse_srcOnePlus, run_srcOnePlus]

-- ### C8
theorem c8_counterexample :
    Lexer.lexF 100 "" srcUnnamedParam = .ok lexUnnamedParam ∧
    Parser.parseF 100 0 lexUnnamedParam = .ok pdUnnamedParam :=
  ⟨by decide, rfl⟩

theorem c8_unnamed_param_continues (fuel : Nat) (lex : LexData) (i : Int)
    (ps : List ParamNode)
    (hty : is_builtin_type lex (i + 1))
    (hcomma : is_punctuator lex (i + 2) 44) :
    paramsLoopF (fuel + 2) lex i ps =
      paramsLoopF (fuel + 1) lex (i + 2) (ps ++ [⟨(tokAt lex (i + 1)).i, []⟩]) := by
  have hkind : (tokAt lex (i + 1)).kind = .Keyword := hty.1
  have hck : (tokAt lex (i + 2)).kind = .Punctuator := hcomma.1
  have hci : (tokAt lex (i + 2)).i = 44 := hcomma.2
  have hne : ¬ (tokAt lex (i + 1)).kind = TokenKind.Eof := by rw [hkind]; intro h; cases h
  have hnp : ¬ is_punctuator lex (i + 1) 41 := by
    intro hc; rw [is_punctuator, hkind] at hc; cases hc.1
  have e12 : i + 1 + 1 = i + 2 := by ring
  have hnptr : ¬ is_punctuator lex (i + 2) 42 := by
    intro hc; rw [is_punctuator, hci] at hc; cases hc.2
  have hnid : ¬ (tokAt lex (i + 2)).kind = TokenKind.Identifier := by
    rw [hck]; intro h; cases h
  have hnrp : ¬ is_punctuator lex (i + 2) 41 := by
    intro hc; rw [is_punctuator, hci] at hc; cases hc.2
  have hcm : is_punctuator lex (i + 2) 44 := hcomma
  show paramsLoopF (fuel + 1 + 1) lex i ps = _
  rw [paramsLoopF]
  rw [if_neg hne, if_neg hnp, if_pos hty]
  rw [show skipPointersF (fuel + 1) lex (i + 1 + 1) = .ok (i + 2) from by
    rw [skipPointersF, e12, if_neg hnptr]]
  dsimp only
  rw [if_neg hnid, if_neg hnrp, if_neg (not_not_intro hcm)]

theorem c8_witness :
    paramsLoopF 2 lexUnnamedParam 2 [] =
      paramsLoopF 1 lexUnnamedParam 4 [⟨(tokAt lexUnnamedParam 3).i, []⟩] :=
  c8_unnamed_param_continues 0 lexUnnamedParam 2 [] (by decide) (by decide)

theorem strtolM_digit (d : Nat) (hd : d < 10) : strtolM [48 + d] = (d : Int) := by
  interval_cases d <;> decide

theorem drop_take_one : ∀ (l : List Nat) (a : Nat), a < l.length →
    (l.drop a).take 1 = [l.getD a 0]
  | _ :: _, 0, _ => rfl
  | x :: t, a + 1, h => drop_take_one t a (by simpa using h)

theorem id_text_digit (lex : LexData) (i : Int) (a d : Nat)
    (h : numTokAt lex i a d) :
    lex.id_text (tokAt lex i) = [48 + d] := by
  obtain ⟨hk, hi, hj, ha, hv, hd⟩ := h
  rw [LexData.id_text, hi, hj]
  have : a + 1 - a = 1 := by omega
  rw [this, drop_take_one lex.ids a ha, hv]

theorem primary_digit (fuel : Nat) (lex : LexData) (i : Int) (a d : Nat)
    (h : numTokAt lex i a d) :
    primary_expressionF (fuel + 1) lex i =
      .ok (some (.Literal (d : Int)), i + 1) := by
  have hk : (tokAt lex i).kind = .NumericConstant := h.1
  have hd : d < 10 := h.2.2.2.2.2
  have hnp : ∀ c, ¬ is_punctuator lex i c := by
    intro c hc; rw [is_punctuator, hk] at hc; cases hc.1
  have hbig : ¬ (is_punctuator lex i 42 ∨ is_punctuator lex i 38 ∨
      is_punctuator lex i 43 ∨ is_punctuator lex i 45 ∨
      is_punctuator lex i 33 ∨ is_punctuator lex i 126) := by
    rintro (hc | hc | hc | hc | hc | hc) <;> exact hnp _ hc
  rw [primary_expressionF, if_neg (hnp 40), if_neg hbig, if_pos hk,
    id_text_digit lex i a d h, strtolM_digit d hd]

theorem mulLoop_seg : ∀ (ps : List (Nat × Nat)) (fuel : Nat) (lex : LexData)
    (i : Int) (a : Nat) (e : Expr),
    MulSeg lex i a ps → notMulOp lex (i + 2 * ps.length) →
    ps.length + 1 ≤ fuel →
    mulLoopF fuel lex e i = .ok (some (ps.foldl (fun e p => .BinExpr p.1
      (some e) (some (.Literal (p.2 : Int)))) e), i + 2 * ps.length) := by
  intro ps
  induction ps with
  | nil =>
    intro fuel lex i a e _ hEnd hfu
    cases fuel with
    | zero => omega
    | succ f =>
      have hEnd' : notMulOp lex i := by simpa using hEnd
      obtain ⟨h1, h2, h3⟩ := hEnd'
      have hnn : ¬ (is_punctuator lex i 42 ∨ is_punctuator lex i 47 ∨
          is_punctuator lex i 37) := by
        rintro (hc | hc | hc)
        exacts [h1 hc, h2 hc, h3 hc]
      rw [mulLoopF, if_neg hnn]
      simp
  | cons p t ih =>
    intro fuel lex i a e hseg hEnd hfu
    obtain ⟨hop, hk, hopi, hnum, hrest⟩ := hseg
    cases fuel with
    | zero => omega
    | succ f =>
      cases f with
      | zero => simp at hfu
      | succ f' =>
        have hcond : is_punctuator lex i 42 ∨ is_punctuator lex i 47 ∨
            is_punctuator lex i 37 := by
          rcases hop with h | h | h
          · exact Or.inl ⟨hk, by rw [hopi, h]⟩
          · exact Or.inr (Or.inl ⟨hk, by rw [hopi, h]⟩)
          · exact Or.inr (Or.inr ⟨hk, by rw [hopi, h]⟩)
        rw [mulLoopF, if_pos hcond]
        rw [primary_digit f' lex (i + 1) a p.2 hnum]
        dsimp only
        rw [hopi]
        have he : i + 1 + 1 = i + 2 := by ring
        rw [he]
        have := ih (f' + 1) lex (i + 2) (a + 1)
          (.BinExpr p.1 (some e) (some (.Literal (p.2 : Int)))) hrest
          (by
            have : i + 2 + 2 * (t.length : Int) =
                i + 2 * ((p :: t).length : Int) := by
              push_cast [List.length_cons]; ring
            rw [this]; exact hEnd)
          (by simp at hfu ⊢; omega)
        rw [this]
        have : i + 2 + 2 * (t.length : Int) = i + 2 * ((p :: t).length : Int) := by
          push_cast [List.length_cons]; ring
        rw [this]
        simp

theorem addFuelB_pos : ∀ t : List (Nat × MulChain), 1 ≤ addFuelB t
  | [] => le_refl 1
  | q :: t' => by rw [addFuelB]; omega

theorem mult_seg (fuel : Nat) (lex : LexData) (i : Int) (a : Nat)
    (g : MulChain) (hseg : GrpSeg lex i a g)
    (hEnd : notMulOp lex (i + 1 + 2 * g.rest.length))
    (hfu : g.rest.length + 3 ≤ fuel) :
    multiplicative_expressionF fuel lex i =
      .ok (some (mulTree g), i + (grpTokLen g : Int)) := by
  obtain ⟨hnum, hrest⟩ := hseg
  cases fuel with
  | zero => omega
  | succ f =>
    cases f with
    | zero => omega
    | succ f' =>
      rw [multiplicative_expressionF, primary_digit f' lex i a g.d0 hnum]
      dsimp only
      rw [mulLoop_seg g.rest (f' + 1) lex (i + 1) (a + 1)
        (.Literal (g.d0 : Int)) hrest hEnd (by omega)]
      rw [mulTree]
      congr 2
      rw [grpTokLen]
      push_cast
      ring

theorem addLoop_seg : ∀ (gs : List (Nat × MulChain)) (fuel : Nat)
    (lex : LexData) (i : Int) (a : Nat) (e : Expr),
    AddSeg lex i a gs → notExprOp lex (i + (addSegTokLen gs : Int)) →
    addFuelB gs ≤ fuel →
    addLoopF fuel lex e i = .ok (some (gs.foldl (fun e p => .BinExpr p.1
      (some e) (some (mulTree p.2))) e), i + (addSegTokLen gs : Int)) := by
  intro gs
  induction gs with
  | nil =>
    intro fuel lex i a e _ hEnd hfu
    cases fuel with
    | zero => rw [addFuelB] at hfu; omega
    | succ f =>
      have hEnd' : notExprOp lex i := by simpa [addSegTokLen] using hEnd
      obtain ⟨_, _, _, h4, h5⟩ := hEnd'
      have hnn : ¬ (is_punctuator lex i 43 ∨ is_punctuator lex i 45) := by
        rintro (hc | hc)
        exacts [h4 hc, h5 hc]
      rw [addLoopF, if_neg hnn]
      simp [addSegTokLen]
  | cons p t ih =>
    intro fuel lex i a e hseg hEnd hfu
    obtain ⟨hop, hk, hopi, hgrp, hrest⟩ := hseg
    rw [addFuelB] at hfu
    cases fuel with
    | zero => omega
    | succ f =>
      have hcond : is_punctuator lex i 43 ∨ is_punctuator lex i 45 := by
        rcases hop with h | h
        · exact Or.inl ⟨hk, by rw [hopi, h]⟩
        · exact Or.inr ⟨hk, by rw [hopi, h]⟩
      rw [addLoopF, if_pos hcond]
      -- the token after the chunk is not a multiplicative operator
      have hnm : notMulOp lex (i + 1 + 1 + 2 * (p.2.rest.length : Int)) := by
        have e1 : i + 1 + 1 + 2 * (p.2.rest.length : Int) =
            i + 1 + (grpTokLen p.2 : Int) := by
          rw [grpTokLen]; push_cast; ring
        rw [e1]
        cases t with
        | nil =>
          have : notExprOp lex (i + ((addSegTokLen [(p.1, p.2)] : Nat) : Int)) := by
            simpa using hEnd
          have e2 : i + ((addSegTokLen [(p.1, p.2)] : Nat) : Int) =
              i + 1 + (grpTokLen p.2 : Int) := by
            rw [addSegTokLen, addSegTokLen]; push_cast; ring
          rw [e2] at this
          exact ⟨this.1, this.2.1, this.2.2.1⟩
        | cons q t' =>
          obtain ⟨hop2, hk2, hopi2, _, _⟩ := hrest
          refine ⟨?_, ?_, ?_⟩ <;> intro hc <;>
            rcases hop2 with h | h <;> rw [is_punctuator, hopi2, h] at hc <;>
            simp at hc
      have hpos := addFuelB_pos t
      rw [mult_seg f lex (i + 1) a p.2 hgrp hnm (by omega)]
      dsimp only
      rw [hopi]
      have := ih f lex (i + 1 + (grpTokLen p.2 : Int)) (a + 1 + p.2.rest.length)
        (.BinExpr p.1 (some e) (some (mulTree p.2))) hrest
        (by
          have e3 : i + 1 + (grpTokLen p.2 : Int) + (addSegTokLen t : Int) =
              i + (addSegTokLen ((p.1, p.2) :: t) : Int) := by
            rw [addSegTokLen]; push_cast; ring
          rw [e3]; exact hEnd)
        (by omega)
      rw [this]
      have e4 : i + 1 + (grpTokLen p.2 : Int) + (addSegTokLen t : Int) =
          i + (addSegTokLen ((p.1, p.2) :: t) : Int) := by
        rw [addSegTokLen]; push_cast; ring
      rw [e4]
      rfl

theorem expression_seg (fuel : Nat) (lex : LexData) (i : Int) (a : Nat)
    (g0 : MulChain) (gs : List (Nat × MulChain))
    (hseg : GrpSeg lex i a g0)
    (haseg : AddSeg lex (i + (grpTokLen g0 : Int)) (a + 1 + g0.rest.length) gs)
    (hEnd : notExprOp lex (i + (grpTokLen g0 : Int) + (addSegTokLen gs : Int)))
    (hfu : exprFuelB g0 gs ≤ fuel) :
    expressionF fuel lex i =
      .ok (some (addTree g0 gs), i + (grpTokLen g0 : Int) +
        (addSegTokLen gs : Int)) := by
  rw [exprFuelB] at hfu
  have hpos := addFuelB_pos gs
  cases fuel with
  | zero => omega
  | succ f =>
    cases f with
    | zero => omega
    | succ f' =>
      rw [expressionF, additive_expressionF]
      have hnm : notMulOp lex (i + 1 + 2 * (g0.rest.length : Int)) := by
        have e1 : i + 1 + 2 * (g0.rest.length : Int) =
            i + (grpTokLen g0 : Int) := by
          rw [grpTokLen]; push_cast; ring
        rw [e1]
        cases gs with
        | nil =>
          have : notExprOp lex (i + (grpTokLen g0 : Int)) := by
            simpa [addSegTokLen] using hEnd
          exact ⟨this.1, this.2.1, this.2.2.1⟩
        | cons q t' =>
          obtain ⟨hop2, hk2, hopi2, _, _⟩ := haseg
          refine ⟨?_, ?_, ?_⟩ <;> intro hc <;>
            rcases hop2 with h | h <;> rw [is_punctuator, hopi2, h] at hc <;>
            simp at hc
      rw [mult_seg f' lex i a g0 hseg hnm (by omega)]
      dsimp only
      rw [addLoop_seg gs f' lex (i + (grpTokLen g0 : Int))
        (a + 1 + g0.rest.length) (mulTree g0) haseg hEnd (by omega)]
      rw [addTree]

theorem getD_append_self (l : List Int) (x : Int) (r : List Int) :
    (l ++ x :: r).getD l.length 0 = x := by
  induction l with
  | nil => rfl
  | cons a t ih => simpa using ih

theorem run_nodeE_bin_some (op : Nat) (a b : Expr) (st : List Int) :
    run.run_nodeE (.BinExpr op (some a) (some b)) st =
      (match run.run_nodeE a st with
      | none => none
      | some st =>
        match run.run_nodeE b st with
        | none => none
        | some st =>
          if 2 ≤ st.length then
            let x := st.getD (st.length - 2) 0
            let y := st.getD (st.length - 1) 0
            let x' := if op = 43 then x + y
                      else if op = 45 then x - y
                      else if op = 42 then x * y
                      else if op = 47 then Int.tdiv x y
                      else if op = 37 then Int.tmod x y
                      else x
            some ((st.dropLast).dropLast ++ [x'])
          else some st) := by
  simp only [run.run_nodeE, run.run_nodeEO]

theorem run_bin (op : Nat) (a b : Expr) (x y : Int)
    (ha : ∀ st, run.run_nodeE a st = some (st ++ [x]))
    (hb : ∀ st, run.run_nodeE b st = some (st ++ [y])) :
    ∀ st, run.run_nodeE (.BinExpr op (some a) (some b)) st =
      some (st ++ [if op = 43 then x + y else if op = 45 then x - y
        else if op = 42 then x * y else if op = 47 then Int.tdiv x y
        else if op = 37 then Int.tmod x y else x]) := by
  intro st
  rw [run_nodeE_bin_some, ha st]
  dsimp only
  rw [hb (st ++ [x])]
  dsimp only
  have hlen : (st ++ [x] ++ [y]).length = st.length + 2 := by simp
  rw [if_pos (by omega)]
  have hx : (st ++ [x] ++ [y]).getD ((st ++ [x] ++ [y]).length - 2) 0 = x := by
    rw [hlen]
    have e1 : st.length + 2 - 2 = st.length := by omega
    rw [e1]
    have e2 : st ++ [x] ++ [y] = st ++ x :: [y] := by simp
    rw [e2, getD_append_self]
  have hy : (st ++ [x] ++ [y]).getD ((st ++ [x] ++ [y]).length - 1) 0 = y := by
    rw [hlen]
    have e1 : st.length + 2 - 1 = (st ++ [x]).length := by simp
    rw [e1]
    have e2 : st ++ [x] ++ [y] = (st ++ [x]) ++ y :: [] := by simp
    rw [e2, getD_append_self]
  rw [hx, hy]
  have hdrop : (st ++ [x] ++ [y]).dropLast.dropLast = st := by
    rw [List.dropLast_concat, List.dropLast_concat]
  rw [hdrop]

theorem run_mul_fold : ∀ (ps : List (Nat × Nat)) (e : Expr) (v : Int),
    (∀ st, run.run_nodeE e st = some (st ++ [v])) →
    (∀ p ∈ ps, mulOpOK p.1) →
    ∀ st, run.run_nodeE (ps.foldl (fun e p => .BinExpr p.1 (some e)
      (some (.Literal (p.2 : Int)))) e) st =
      some (st ++ [ps.foldl (fun v p => mulApply p.1 v (p.2 : Int)) v]) := by
  intro ps
  induction ps with
  | nil => intro e v he _ st; simpa using he st
  | cons p t ih =>
    intro e v he hwf st
    have hop : mulOpOK p.1 := hwf p (by simp)
    have hstep : ∀ st, run.run_nodeE (.BinExpr p.1 (some e)
        (some (.Literal (p.2 : Int)))) st =
        some (st ++ [mulApply p.1 v (p.2 : Int)]) := by
      intro st
      rw [run_bin p.1 e (.Literal (p.2 : Int)) v (p.2 : Int) he (fun st => rfl) st]
      rcases hop with h | h | h <;> rw [h] <;> rw [mulApply] <;> norm_num
    rw [List.foldl_cons, List.foldl_cons]
    exact ih _ _ hstep (fun q hq => hwf q (by simp [hq])) st

theorem run_add_fold : ∀ (gs : List (Nat × MulChain)) (e : Expr) (v : Int),
    (∀ st, run.run_nodeE e st = some (st ++ [v])) →
    (∀ p ∈ gs, addOpOK p.1 ∧ ∀ q ∈ p.2.rest, mulOpOK q.1) →
    ∀ st, run.run_nodeE (gs.foldl (fun e p => .BinExpr p.1 (some e)
      (some (mulTree p.2))) e) st =
      some (st ++ [gs.foldl (fun v p => addApply p.1 v (mulVal p.2)) v]) := by
  intro gs
  induction gs with
  | nil => intro e v he _ st; simpa using he st
  | cons p t ih =>
    intro e v he hwf st
    obtain ⟨hop, hmwf⟩ := hwf p (by simp)
    have hmul : ∀ st, run.run_nodeE (mulTree p.2) st =
        some (st ++ [mulVal p.2]) := by
      intro st
      rw [mulTree, mulVal]
      exact run_mul_fold p.2.rest (.Literal (p.2.d0 : Int)) (p.2.d0 : Int)
        (fun st => rfl) hmwf st
    have hstep : ∀ st, run.run_nodeE (.BinExpr p.1 (some e)
        (some (mulTree p.2))) st =
        some (st ++ [addApply p.1 v (mulVal p.2)]) := by
      intro st
      rw [run_bin p.1 e (mulTree p.2) v (mulVal p.2) he hmul st]
      rcases hop with h | h <;> rw [h] <;> rw [addApply] <;> norm_num
    rw [List.foldl_cons, List.foldl_cons]
    exact ih _ _ hstep (fun q hq => hwf q (by simp [hq])) st

theorem run_addTree (g0 : MulChain) (gs : List (Nat × MulChain))
    (h0 : ∀ q ∈ g0.rest, mulOpOK q.1)
    (hwf : ∀ p ∈ gs, addOpOK p.1 ∧ ∀ q ∈ p.2.rest, mulOpOK q.1) :
    run.run_nodeE (addTree g0 gs) [] = some [addVal g0 gs] := by
  have hmul : ∀ st, run.run_nodeE (mulTree g0) st =
      some (st ++ [mulVal g0]) := by
    intro st
    rw [mulTree, mulVal]
    exact run_mul_fold g0.rest (.Literal (g0.d0 : Int)) (g0.d0 : Int)
      (fun st => rfl) h0 st
  rw [addTree, addVal]
  simpa using run_add_fold gs (mulTree g0) (mulVal g0) hmul hwf []

theorem mulSeg_wf : ∀ (ps : List (Nat × Nat)) (lex : LexData) (i : Int)
    (a : Nat), MulSeg lex i a ps → ∀ q ∈ ps, mulOpOK q.1 := by
  intro ps
  induction ps with
  | nil => intro lex i a _ q hq; cases hq
  | cons p t ih =>
    intro lex i a hseg q hq
    obtain ⟨hop, _, _, _, hrest⟩ := hseg
    rcases List.mem_cons.mp hq with hq | hq
    · exact hq ▸ hop
    · exact ih lex (i + 2) (a + 1) hrest q hq

theorem addSeg_wf : ∀ (gs : List (Nat × MulChain)) (lex : LexData) (i : Int)
    (a : Nat), AddSeg lex i a gs →
    ∀ p ∈ gs, addOpOK p.1 ∧ ∀ q ∈ p.2.rest, mulOpOK q.1 := by
  intro gs
  induction gs with
  | nil => intro lex i a _ p hp; cases hp
  | cons g t ih =>
    intro lex i a hseg p hp
    obtain ⟨hop, _, _, hgrp, hrest⟩ := hseg
    rcases List.mem_cons.mp hp with hp | hp
    · subst hp
      exact ⟨hop, mulSeg_wf p.2.rest lex (i + 1 + 1) (a + 1) hgrp.2⟩
    · exact ih lex _ _ hrest p hp

theorem c1_draft :
    pipelineF 100 srcMain1042 = Except.ok 18 ∧
    (∀ (fuel : Nat) (lex : LexData) (i : Int) (a : Nat) (g0 : MulChain)
       (gs : List (Nat × MulChain)),
      GrpSeg lex i a g0 →
      AddSeg lex (i + (grpTokLen g0 : Int)) (a + 1 + g0.rest.length) gs →
      notExprOp lex (i + (grpTokLen g0 : Int) + (addSegTokLen gs : Int)) →
      exprFuelB g0 gs ≤ fuel →
      expressionF fuel lex i =
        .ok (some (addTree g0 gs), i + (grpTokLen g0 : Int) +
          (addSegTokLen gs : Int)) ∧
      run.run_nodeE (addTree g0 gs) [] = some [addVal g0 gs]) := by
  constructor
  · exact pipeline_staged 100 srcMain1042 lexMain1042 pdMain1042 18
      lex_srcMain1042 parse_srcMain1042 run_srcMain1042
  · intro fuel lex i a g0 gs hseg haseg hEnd hfu
    refine ⟨expression_seg fuel lex i a g0 gs hseg haseg hEnd hfu, ?_⟩
    apply run_addTree
    · exact fun q hq => mulSeg_wf g0.rest lex (i + 1) (a + 1) hseg.2 q hq
    · exact addSeg_wf gs lex _ _ haseg


theorem c1_witness_draft :
    expressionF 9 lexTiny 0 =
      .ok (some (addTree ⟨1, []⟩ [(43, ⟨2, [(42, 3)]⟩)]), 5) ∧
    run.run_nodeE (addTree ⟨1, []⟩ [(43, ⟨2, [(42, 3)]⟩)]) [] = some [7] := by
  have hg : GrpSeg lexTiny 0 0 ⟨1, []⟩ :=
    ⟨⟨rfl, rfl, rfl, by decide, by decide, by decide⟩, trivial⟩
  have hadd : AddSeg lexTiny (0 + (grpTokLen ⟨1, []⟩ : Int))
      (0 + 1 + (List.length ([] : List (Nat × Nat)))) [(43, ⟨2, [(42, 3)]⟩)] :=
    ⟨Or.inl rfl, by decide, by decide,
     ⟨⟨by decide, by decide, by decide, by decide, by decide, by decide⟩,
      ⟨Or.inl rfl, by decide, by decide,
       ⟨by decide, by decide, by decide, by decide, by decide, by decide⟩,
       trivial⟩⟩, trivial⟩
  have hEnd : notExprOp lexTiny (0 + (grpTokLen ⟨1, []⟩ : Int) +
      (addSegTokLen [(43, ⟨2, [(42, 3)]⟩)] : Int)) :=
    ⟨by decide, by decide, by decide, by decide, by decide⟩
  have h := c1_draft.2 9 lexTiny 0 0 ⟨1, []⟩ [(43, ⟨2, [(42, 3)]⟩)]
    hg hadd hEnd (by decide)
  exact ⟨h.1, h.2⟩


/-- C6: for every dispatch-state punctuator that reads a look-ahead character,
if the look-ahead does not extend the operator (and does not start a comment),
the lexer emits exactly one one-character `Punctuator` token and re-processes
the look-ahead character against the dispatch state, so lexing the rest of the
input continues exactly as if that character were the current character; and if
the look-ahead does extend the operator, the lexer emits exactly one
`Punctuator` token carrying the two-character payload and consumes both
characters (maximal munch). -/
theorem c6_punctuator_maximal_munch :
    (∀ (fuel : Nat) (data : LexData) (n : Nat) (p : TextPos) (c d : Nat)
        (r : List Nat) (prepro : Bool) (tik : List Nat) (kc : Bool),
      lookaheadStarter c → ¬ extendsOp c d → ¬ startsComment c d →
      Lexer.processLoopF (fuel + 1)
          ⟨.ReadingWhitespace, data, ⟨d :: r, n, p⟩, c, prepro, tik, kc⟩ =
        Lexer.processLoopF fuel
          ⟨.ReadingWhitespace, data.add_token .Punctuator (CharReader.nextchar ⟨d :: r, n, p⟩).2.pos c 0,
           (CharReader.nextchar ⟨d :: r, n, p⟩).2, d, prepro, tik, kc⟩) ∧
    (∀ (data : LexData) (n : Nat) (p : TextPos) (c d : Nat)
        (r : List Nat) (prepro : Bool) (tik : List Nat) (kc : Bool),
      lookaheadStarter c → extendsOp c d →
      ∃ st' : LexSt,
        Lexer.process ⟨.ReadingWhitespace, data, ⟨d :: r, n, p⟩, c, prepro, tik, kc⟩ =
          .ok (st', .NextChr) ∧
        st'.state = .ReadingWhitespace ∧
        st'.data = data.add_token .Punctuator (CharReader.nextchar ⟨d :: r, n, p⟩).2.pos c d ∧
        st'.reader = (CharReader.nextchar ⟨d :: r, n, p⟩).2 ∧
        st'.prepro = prepro ∧ st'.tok_id = tik ∧ st'.keep_comments = kc) := by
  constructor
  · intro fuel data n p c d r prepro tik kc hc hne hcm
    simp only [CharReader.nextchar]
    rcases (hc : c = 43 ∨ c = 45 ∨ c = 47 ∨ c = 38 ∨ c = 124 ∨ c = 58 ∨ c = 94 ∨ c = 37 ∨ c = 42 ∨ c = 33 ∨ c = 126 ∨ c = 60 ∨ c = 62 ∨ c = 61) with rfl | rfl | rfl | rfl | rfl | rfl | rfl | rfl | rfl | rfl | rfl | rfl | rfl | rfl
    · conv_lhs => rw [Lexer.processLoopF]
      have hp : Lexer.process ⟨.ReadingWhitespace, data, ⟨d :: r, n, p⟩, 43, prepro, tik, kc⟩ = .ok (⟨.ReadingWhitespace, data.add_token .Punctuator (if d = 10 then ⟨p.line + 1, 0⟩ else ⟨p.line, p.col + 1⟩) 43 0, ⟨r, n + 1, (if d = 10 then ⟨p.line + 1, 0⟩ else ⟨p.line, p.col + 1⟩)⟩, d, prepro, tik, kc⟩, .ProcessChr) := by
        simp only [Lexer.process, CharReader.nextchar]
        norm_num
        exact fun h => absurd (Or.inl ⟨rfl, h⟩) hne
      rw [hp]
    · conv_lhs => rw [Lexer.processLoopF]
      have hp : Lexer.process ⟨.ReadingWhitespace, data, ⟨d :: r, n, p⟩, 45, prepro, tik, kc⟩ = .ok (⟨.ReadingWhitespace, data.add_token .Punctuator (if d = 10 then ⟨p.line + 1, 0⟩ else ⟨p.line, p.col + 1⟩) 45 0, ⟨r, n + 1, (if d = 10 then ⟨p.line + 1, 0⟩ else ⟨p.line, p.col + 1⟩)⟩, d, prepro, tik, kc⟩, .ProcessChr) := by
        simp only [Lexer.process, CharReader.nextchar]
        norm_num
        exact fun h => absurd (Or.inr (Or.inl ⟨rfl, h⟩)) hne
      rw [hp]
    · conv_lhs => rw [Lexer.processLoopF]
      have hp : Lexer.process ⟨.ReadingWhitespace, data, ⟨d :: r, n, p⟩, 47, prepro, tik, kc⟩ = .ok (⟨.ReadingWhitespace, data.add_token .Punctuator (if d = 10 then ⟨p.line + 1, 0⟩ else ⟨p.line, p.col + 1⟩) 47 0, ⟨r, n + 1, (if d = 10 then ⟨p.line + 1, 0⟩ else ⟨p.line, p.col + 1⟩)⟩, d, prepro, tik, kc⟩, .ProcessChr) := by
        simp only [Lexer.process, CharReader.nextchar]
        norm_num
        have h47 : ¬ d = 47 := fun h => hcm ⟨rfl, Or.inl h⟩
        have h42 : ¬ d = 42 := fun h => hcm ⟨rfl, Or.inr h⟩
        have h61 : ¬ d = 61 := fun h => hne (Or.inr (Or.inr (Or.inl ⟨rfl, h⟩)))
        rw [if_neg h47, if_neg h42, if_neg h61]
      rw [hp]
    · conv_lhs => rw [Lexer.processLoopF]
      have hp : Lexer.process ⟨.ReadingWhitespace, data, ⟨d :: r, n, p⟩, 38, prepro, tik, kc⟩ = .ok (⟨.ReadingWhitespace, data.add_token .Punctuator (if d = 10 then ⟨p.line + 1, 0⟩ else ⟨p.line, p.col + 1⟩) 38 0, ⟨r, n + 1, (if d = 10 then ⟨p.line + 1, 0⟩ else ⟨p.line, p.col + 1⟩)⟩, d, prepro, tik, kc⟩, .ProcessChr) := by
        simp only [Lexer.process, CharReader.nextchar]
        norm_num
        exact fun h => absurd (Or.inr (Or.inr (Or.inr (Or.inl ⟨Or.inl rfl, h.symm⟩)))) hne
      rw [hp]
    · conv_lhs => rw [Lexer.processLoopF]
      have hp : Lexer.process ⟨.ReadingWhitespace, data, ⟨d :: r, n, p⟩, 124, prepro, tik, kc⟩ = .ok (⟨.ReadingWhitespace, data.add_token .Punctuator (if d = 10 then ⟨p.line + 1, 0⟩ else ⟨p.line, p.col + 1⟩) 124 0, ⟨r, n + 1, (if d = 10 then ⟨p.line + 1, 0⟩ else ⟨p.line, p.col + 1⟩)⟩, d, prepro, tik, kc⟩, .ProcessChr) := by
        simp only [Lexer.process, CharReader.nextchar]
        norm_num
        exact fun h => absurd (Or.inr (Or.inr (Or.inr (Or.inl ⟨Or.inr (Or.inl rfl), h.symm⟩)))) hne
      rw [hp]
    · conv_lhs => rw [Lexer.processLoopF]
      have hp : Lexer.process ⟨.ReadingWhitespace, data, ⟨d :: r, n, p⟩, 58, prepro, tik, kc⟩ = .ok (⟨.ReadingWhitespace, data.add_token .Punctuator (if d = 10 then ⟨p.line + 1, 0⟩ else ⟨p.line, p.col + 1⟩) 58 0, ⟨r, n + 1, (if d = 10 then ⟨p.line + 1, 0⟩ else ⟨p.line, p.col + 1⟩)⟩, d, prepro, tik, kc⟩, .ProcessChr) := by
        simp only [Lexer.process, CharReader.nextchar]
        norm_num
        exact fun h => absurd (Or.inr (Or.inr (Or.inr (Or.inl ⟨Or.inr (Or.inr rfl), h.symm⟩)))) hne
      rw [hp]
    · conv_lhs => rw [Lexer.processLoopF]
      have hp : Lexer.process ⟨.ReadingWhitespace, data, ⟨d :: r, n, p⟩, 94, prepro, tik, kc⟩ = .ok (⟨.ReadingWhitespace, data.add_token .Punctuator (if d = 10 then ⟨p.line + 1, 0⟩ else ⟨p.line, p.col + 1⟩) 94 0, ⟨r, n + 1, (if d = 10 then ⟨p.line + 1, 0⟩ else ⟨p.line, p.col + 1⟩)⟩, d, prepro, tik, kc⟩, .ProcessChr) := by
        simp only [Lexer.process, CharReader.nextchar]
        norm_num
        exact fun h => absurd (Or.inr (Or.inr (Or.inr (Or.inr (Or.inl ⟨Or.inl rfl, h⟩))))) hne
      rw [hp]
    · conv_lhs => rw [Lexer.processLoopF]
      have hp : Lexer.process ⟨.ReadingWhitespace, data, ⟨d :: r, n, p⟩, 37, prepro, tik, kc⟩ = .ok (⟨.ReadingWhitespace, data.add_token .Punctuator (if d = 10 then ⟨p.line + 1, 0⟩ else ⟨p.line, p.col + 1⟩) 37 0, ⟨r, n + 1, (if d = 10 then ⟨p.line + 1, 0⟩ else ⟨p.line, p.col + 1⟩)⟩, d, prepro, tik, kc⟩, .ProcessChr) := by
        simp only [Lexer.process, CharReader.nextchar]
        norm_num
        exact fun h => absurd (Or.inr (Or.inr (Or.inr (Or.inr (Or.inl ⟨Or.inr (Or.inl rfl), h⟩))))) hne
      rw [hp]
    · conv_lhs => rw [Lexer.processLoopF]
      have hp : Lexer.process ⟨.ReadingWhitespace, data, ⟨d :: r, n, p⟩, 42, prepro, tik, kc⟩ = .ok (⟨.ReadingWhitespace, data.add_token .Punctuator (if d = 10 then ⟨p.line + 1, 0⟩ else ⟨p.line, p.col + 1⟩) 42 0, ⟨r, n + 1, (if d = 10 then ⟨p.line + 1, 0⟩ else ⟨p.line, p.col + 1⟩)⟩, d, prepro, tik, kc⟩, .ProcessChr) := by
        simp only [Lexer.process, CharReader.nextchar]
        norm_num
        exact fun h => absurd (Or.inr (Or.inr (Or.inr (Or.inr (Or.inl ⟨Or.inr (Or.inr (Or.inl rfl)), h⟩))))) hne
      rw [hp]
    · conv_lhs => rw [Lexer.processLoopF]
      have hp : Lexer.process ⟨.ReadingWhitespace, data, ⟨d :: r, n, p⟩, 33, prepro, tik, kc⟩ = .ok (⟨.ReadingWhitespace, data.add_token .Punctuator (if d = 10 then ⟨p.line + 1, 0⟩ else ⟨p.line, p.col + 1⟩) 33 0, ⟨r, n + 1, (if d = 10 then ⟨p.line + 1, 0⟩ else ⟨p.line, p.col + 1⟩)⟩, d, prepro, tik, kc⟩, .ProcessChr) := by
        simp only [Lexer.process, CharReader.nextchar]
        norm_num
        exact fun h => absurd (Or.inr (Or.inr (Or.inr (Or.inr (Or.inl ⟨Or.inr (Or.inr (Or.inr (Or.inl rfl))), h⟩))))) hne
      rw [hp]
    · conv_lhs => rw [Lexer.processLoopF]
      have hp : Lexer.process ⟨.ReadingWhitespace, data, ⟨d :: r, n, p⟩, 126, prepro, tik, kc⟩ = .ok (⟨.ReadingWhitespace, data.add_token .Punctuator (if d = 10 then ⟨p.line + 1, 0⟩ else ⟨p.line, p.col + 1⟩) 126 0, ⟨r, n + 1, (if d = 10 then ⟨p.line + 1, 0⟩ else ⟨p.line, p.col + 1⟩)⟩, d, prepro, tik, kc⟩, .ProcessChr) := by
        simp only [Lexer.process, CharReader.nextchar]
        norm_num
        exact fun h => absurd (Or.inr (Or.inr (Or.inr (Or.inr (Or.inl ⟨Or.inr (Or.inr (Or.inr (Or.inr rfl))), h⟩))))) hne
      rw [hp]
    · conv_lhs => rw [Lexer.processLoopF]
      have hp : Lexer.process ⟨.ReadingWhitespace, data, ⟨d :: r, n, p⟩, 60, prepro, tik, kc⟩ = .ok (⟨.ReadingWhitespace, data.add_token .Punctuator (if d = 10 then ⟨p.line + 1, 0⟩ else ⟨p.line, p.col + 1⟩) 60 0, ⟨r, n + 1, (if d = 10 then ⟨p.line + 1, 0⟩ else ⟨p.line, p.col + 1⟩)⟩, d, prepro, tik, kc⟩, .ProcessChr) := by
        simp only [Lexer.process, CharReader.nextchar]
        norm_num
        exact fun h => absurd (Or.inr (Or.inr (Or.inr (Or.inr (Or.inr ⟨Or.inl rfl, h.imp Eq.symm id⟩))))) hne
      rw [hp]
    · conv_lhs => rw [Lexer.processLoopF]
      have hp : Lexer.process ⟨.ReadingWhitespace, data, ⟨d :: r, n, p⟩, 62, prepro, tik, kc⟩ = .ok (⟨.ReadingWhitespace, data.add_token .Punctuator (if d = 10 then ⟨p.line + 1, 0⟩ else ⟨p.line, p.col + 1⟩) 62 0, ⟨r, n + 1, (if d = 10 then ⟨p.line + 1, 0⟩ else ⟨p.line, p.col + 1⟩)⟩, d, prepro, tik, kc⟩, .ProcessChr) := by
        simp only [Lexer.process, CharReader.nextchar]
        norm_num
        exact fun h => absurd (Or.inr (Or.inr (Or.inr (Or.inr (Or.inr ⟨Or.inr (Or.inl rfl), h.imp Eq.symm id⟩))))) hne
      rw [hp]
    · conv_lhs => rw [Lexer.processLoopF]
      have hp : Lexer.process ⟨.ReadingWhitespace, data, ⟨d :: r, n, p⟩, 61, prepro, tik, kc⟩ = .ok (⟨.ReadingWhitespace, data.add_token .Punctuator (if d = 10 then ⟨p.line + 1, 0⟩ else ⟨p.line, p.col + 1⟩) 61 0, ⟨r, n + 1, (if d = 10 then ⟨p.line + 1, 0⟩ else ⟨p.line, p.col + 1⟩)⟩, d, prepro, tik, kc⟩, .ProcessChr) := by
        simp only [Lexer.process, CharReader.nextchar]
        norm_num
        exact fun h => absurd (Or.inr (Or.inr (Or.inr (Or.inr (Or.inr ⟨Or.inr (Or.inr rfl), h.imp Eq.symm id⟩))))) hne
      rw [hp]
  · intro data n p c d r prepro tik kc hc hext
    simp only [CharReader.nextchar]
    rcases (hc : c = 43 ∨ c = 45 ∨ c = 47 ∨ c = 38 ∨ c = 124 ∨ c = 58 ∨ c = 94 ∨ c = 37 ∨ c = 42 ∨ c = 33 ∨ c = 126 ∨ c = 60 ∨ c = 62 ∨ c = 61) with rfl | rfl | rfl | rfl | rfl | rfl | rfl | rfl | rfl | rfl | rfl | rfl | rfl | rfl
    · rcases hext with ⟨_, hd⟩ | ⟨hw, _⟩ | ⟨hw, _⟩ | ⟨hw, _⟩ | ⟨hw, _⟩ | ⟨hw, _⟩
      · refine ⟨⟨.ReadingWhitespace, data.add_token .Punctuator (if d = 10 then ⟨p.line + 1, 0⟩ else ⟨p.line, p.col + 1⟩) 43 d, ⟨r, n + 1, (if d = 10 then ⟨p.line + 1, 0⟩ else ⟨p.line, p.col + 1⟩)⟩, d, prepro, tik, kc⟩, ?_, rfl, rfl, rfl, rfl, rfl, rfl⟩
        simp only [Lexer.process, CharReader.nextchar]
        norm_num
        exact fun h1 h2 => absurd hd (not_or.mpr ⟨h1, h2⟩)
      · exact absurd hw (by decide)
      · exact absurd hw (by decide)
      · exact absurd hw (by decide)
      · exact absurd hw (by decide)
      · exact absurd hw (by decide)
    · rcases hext with ⟨hw, _⟩ | ⟨_, hd⟩ | ⟨hw, _⟩ | ⟨hw, _⟩ | ⟨hw, _⟩ | ⟨hw, _⟩
      · exact absurd hw (by decide)
      · refine ⟨⟨.ReadingWhitespace, data.add_token .Punctuator (if d = 10 then ⟨p.line + 1, 0⟩ else ⟨p.line, p.col + 1⟩) 45 d, ⟨r, n + 1, (if d = 10 then ⟨p.line + 1, 0⟩ else ⟨p.line, p.col + 1⟩)⟩, d, prepro, tik, kc⟩, ?_, rfl, rfl, rfl, rfl, rfl, rfl⟩
        simp only [Lexer.process, CharReader.nextchar]
        norm_num
        exact fun h1 h2 h3 => absurd hd (not_or.mpr ⟨h1, not_or.mpr ⟨h2, h3⟩⟩)
      · exact absurd hw (by decide)
      · exact absurd hw (by decide)
      · exact absurd hw (by decide)
      · exact absurd hw (by decide)
    · rcases hext with ⟨hw, _⟩ | ⟨hw, _⟩ | ⟨_, hd⟩ | ⟨hw, _⟩ | ⟨hw, _⟩ | ⟨hw, _⟩
      · exact absurd hw (by decide)
      · exact absurd hw (by decide)
      · refine ⟨⟨.ReadingWhitespace, data.add_token .Punctuator (if d = 10 then ⟨p.line + 1, 0⟩ else ⟨p.line, p.col + 1⟩) 47 d, ⟨r, n + 1, (if d = 10 then ⟨p.line + 1, 0⟩ else ⟨p.line, p.col + 1⟩)⟩, d, prepro, tik, kc⟩, ?_, rfl, rfl, rfl, rfl, rfl, rfl⟩
        have h47 : ¬ d = 47 := by rw [hd]; decide
        have h42 : ¬ d = 42 := by rw [hd]; decide
        simp only [Lexer.process, CharReader.nextchar]
        norm_num
        rw [if_neg h47, if_neg h42, if_pos hd]
      · exact absurd hw (by decide)
      · exact absurd hw (by decide)
      · exact absurd hw (by decide)
    · rcases hext with ⟨hw, _⟩ | ⟨hw, _⟩ | ⟨hw, _⟩ | ⟨_, hd⟩ | ⟨hw, _⟩ | ⟨hw, _⟩
      · exact absurd hw (by decide)
      · exact absurd hw (by decide)
      · exact absurd hw (by decide)
      · refine ⟨⟨.ReadingWhitespace, data.add_token .Punctuator (if d = 10 then ⟨p.line + 1, 0⟩ else ⟨p.line, p.col + 1⟩) 38 d, ⟨r, n + 1, (if d = 10 then ⟨p.line + 1, 0⟩ else ⟨p.line, p.col + 1⟩)⟩, 38, prepro, tik, kc⟩, ?_, rfl, rfl, rfl, rfl, rfl, rfl⟩
        simp only [Lexer.process, CharReader.nextchar]
        norm_num
        exact fun h1 => absurd hd.symm h1
      · exact absurd hw (by decide)
      · exact absurd hw (by decide)
    · rcases hext with ⟨hw, _⟩ | ⟨hw, _⟩ | ⟨hw, _⟩ | ⟨_, hd⟩ | ⟨hw, _⟩ | ⟨hw, _⟩
      · exact absurd hw (by decide)
      · exact absurd hw (by decide)
      · exact absurd hw (by decide)
      · refine ⟨⟨.ReadingWhitespace, data.add_token .Punctuator (if d = 10 then ⟨p.line + 1, 0⟩ else ⟨p.line, p.col + 1⟩) 124 d, ⟨r, n + 1, (if d = 10 then ⟨p.line + 1, 0⟩ else ⟨p.line, p.col + 1⟩)⟩, 124, prepro, tik, kc⟩, ?_, rfl, rfl, rfl, rfl, rfl, rfl⟩
        simp only [Lexer.process, CharReader.nextchar]
        norm_num
        exact fun h1 => absurd hd.symm h1
      · exact absurd hw (by decide)
      · exact absurd hw (by decide)
    · rcases hext with ⟨hw, _⟩ | ⟨hw, _⟩ | ⟨hw, _⟩ | ⟨_, hd⟩ | ⟨hw, _⟩ | ⟨hw, _⟩
      · exact absurd hw (by decide)
      · exact absurd hw (by decide)
      · exact absurd hw (by decide)
      · refine ⟨⟨.ReadingWhitespace, data.add_token .Punctuator (if d = 10 then ⟨p.line + 1, 0⟩ else ⟨p.line, p.col + 1⟩) 58 d, ⟨r, n + 1, (if d = 10 then ⟨p.line + 1, 0⟩ else ⟨p.line, p.col + 1⟩)⟩, 58, prepro, tik, kc⟩, ?_, rfl, rfl, rfl, rfl, rfl, rfl⟩
        simp only [Lexer.process, CharReader.nextchar]
        norm_num
        exact fun h1 => absurd hd.symm h1
      · exact absurd hw (by decide)
      · exact absurd hw (by decide)
    · rcases hext with ⟨hw, _⟩ | ⟨hw, _⟩ | ⟨hw, _⟩ | ⟨hw, _⟩ | ⟨_, hd⟩ | ⟨hw, _⟩
      · exact absurd hw (by decide)
      · exact absurd hw (by decide)
      · exact absurd hw (by decide)
      · exact absurd hw (by decide)
      · refine ⟨⟨.ReadingWhitespace, data.add_token .Punctuator (if d = 10 then ⟨p.line + 1, 0⟩ else ⟨p.line, p.col + 1⟩) 94 d, ⟨r, n + 1, (if d = 10 then ⟨p.line + 1, 0⟩ else ⟨p.line, p.col + 1⟩)⟩, 94, prepro, tik, kc⟩, ?_, rfl, rfl, rfl, rfl, rfl, rfl⟩
        simp only [Lexer.process, CharReader.nextchar]
        norm_num
        exact fun h1 => absurd hd h1
      · exact absurd hw (by decide)
    · rcases hext with ⟨hw, _⟩ | ⟨hw, _⟩ | ⟨hw, _⟩ | ⟨hw, _⟩ | ⟨_, hd⟩ | ⟨hw, _⟩
      · exact absurd hw (by decide)
      · exact absurd hw (by decide)
      · exact absurd hw (by decide)
      · exact absurd hw (by decide)
      · refine ⟨⟨.ReadingWhitespace, data.add_token .Punctuator (if d = 10 then ⟨p.line + 1, 0⟩ else ⟨p.line, p.col + 1⟩) 37 d, ⟨r, n + 1, (if d = 10 then ⟨p.line + 1, 0⟩ else ⟨p.line, p.col + 1⟩)⟩, 37, prepro, tik, kc⟩, ?_, rfl, rfl, rfl, rfl, rfl, rfl⟩
        simp only [Lexer.process, CharReader.nextchar]
        norm_num
        exact fun h1 => absurd hd h1
      · exact absurd hw (by decide)
    · rcases hext with ⟨hw, _⟩ | ⟨hw, _⟩ | ⟨hw, _⟩ | ⟨hw, _⟩ | ⟨_, hd⟩ | ⟨hw, _⟩
      · exact absurd hw (by decide)
      · exact absurd hw (by decide)
      · exact absurd hw (by decide)
      · exact absurd hw (by decide)
      · refine ⟨⟨.ReadingWhitespace, data.add_token .Punctuator (if d = 10 then ⟨p.line + 1, 0⟩ else ⟨p.line, p.col + 1⟩) 42 d, ⟨r, n + 1, (if d = 10 then ⟨p.line + 1, 0⟩ else ⟨p.line, p.col + 1⟩)⟩, 42, prepro, tik, kc⟩, ?_, rfl, rfl, rfl, rfl, rfl, rfl⟩
        simp only [Lexer.process, CharReader.nextchar]
        norm_num
        exact fun h1 => absurd hd h1
      · exact absurd hw (by decide)
    · rcases hext with ⟨hw, _⟩ | ⟨hw, _⟩ | ⟨hw, _⟩ | ⟨hw, _⟩ | ⟨_, hd⟩ | ⟨hw, _⟩
      · exact absurd hw (by decide)
      · exact absurd hw (by decide)
      · exact absurd hw (by decide)
      · exact absurd hw (by decide)
      · refine ⟨⟨.ReadingWhitespace, data.add_token .Punctuator (if d = 10 then ⟨p.line + 1, 0⟩ else ⟨p.line, p.col + 1⟩) 33 d, ⟨r, n + 1, (if d = 10 then ⟨p.line + 1, 0⟩ else ⟨p.line, p.col + 1⟩)⟩, 33, prepro, tik, kc⟩, ?_, rfl, rfl, rfl, rfl, rfl, rfl⟩
        simp only [Lexer.process, CharReader.nextchar]
        norm_num
        exact fun h1 => absurd hd h1
      · exact absurd hw (by decide)
    · rcases hext with ⟨hw, _⟩ | ⟨hw, _⟩ | ⟨hw, _⟩ | ⟨hw, _⟩ | ⟨_, hd⟩ | ⟨hw, _⟩
      · exact absurd hw (by decide)
      · exact absurd hw (by decide)
      · exact absurd hw (by decide)
      · exact absurd hw (by decide)
      · refine ⟨⟨.ReadingWhitespace, data.add_token .Punctuator (if d = 10 then ⟨p.line + 1, 0⟩ else ⟨p.line, p.col + 1⟩) 126 d, ⟨r, n + 1, (if d = 10 then ⟨p.line + 1, 0⟩ else ⟨p.line, p.col + 1⟩)⟩, 126, prepro, tik, kc⟩, ?_, rfl, rfl, rfl, rfl, rfl, rfl⟩
        simp only [Lexer.process, CharReader.nextchar]
        norm_num
        exact fun h1 => absurd hd h1
      · exact absurd hw (by decide)
    · rcases hext with ⟨hw, _⟩ | ⟨hw, _⟩ | ⟨hw, _⟩ | ⟨hw, _⟩ | ⟨hw, _⟩ | ⟨_, hd⟩
      · exact absurd hw (by decide)
      · exact absurd hw (by decide)
      · exact absurd hw (by decide)
      · exact absurd hw (by decide)
      · exact absurd hw (by decide)
      · refine ⟨⟨.ReadingWhitespace, data.add_token .Punctuator (if d = 10 then ⟨p.line + 1, 0⟩ else ⟨p.line, p.col + 1⟩) 60 d, ⟨r, n + 1, (if d = 10 then ⟨p.line + 1, 0⟩ else ⟨p.line, p.col + 1⟩)⟩, d, prepro, tik, kc⟩, ?_, rfl, rfl, rfl, rfl, rfl, rfl⟩
        simp only [Lexer.process, CharReader.nextchar]
        norm_num
        exact fun h1 h2 => hd.elim (fun h => absurd h.symm h1) (fun h => absurd h h2)
    · rcases hext with ⟨hw, _⟩ | ⟨hw, _⟩ | ⟨hw, _⟩ | ⟨hw, _⟩ | ⟨hw, _⟩ | ⟨_, hd⟩
      · exact absurd hw (by decide)
      · exact absurd hw (by decide)
      · exact absurd hw (by decide)
      · exact absurd hw (by decide)
      · exact absurd hw (by decide)
      · refine ⟨⟨.ReadingWhitespace, data.add_token .Punctuator (if d = 10 then ⟨p.line + 1, 0⟩ else ⟨p.line, p.col + 1⟩) 62 d, ⟨r, n + 1, (if d = 10 then ⟨p.line + 1, 0⟩ else ⟨p.line, p.col + 1⟩)⟩, d, prepro, tik, kc⟩, ?_, rfl, rfl, rfl, rfl, rfl, rfl⟩
        simp only [Lexer.process, CharReader.nextchar]
        norm_num
        exact fun h1 h2 => hd.elim (fun h => absurd h.symm h1) (fun h => absurd h h2)
    · rcases hext with ⟨hw, _⟩ | ⟨hw, _⟩ | ⟨hw, _⟩ | ⟨hw, _⟩ | ⟨hw, _⟩ | ⟨_, hd⟩
      · exact absurd hw (by decide)
      · exact absurd hw (by decide)
      · exact absurd hw (by decide)
      · exact absurd hw (by decide)
      · exact absurd hw (by decide)
      · refine ⟨⟨.ReadingWhitespace, data.add_token .Punctuator (if d = 10 then ⟨p.line + 1, 0⟩ else ⟨p.line, p.col + 1⟩) 61 d, ⟨r, n + 1, (if d = 10 then ⟨p.line + 1, 0⟩ else ⟨p.line, p.col + 1⟩)⟩, d, prepro, tik, kc⟩, ?_, rfl, rfl, rfl, rfl, rfl, rfl⟩
        simp only [Lexer.process, CharReader.nextchar]
        norm_num
        exact fun h1 h2 => absurd (hd.elim id id) h2

/-- C6 witness: instantiated on `>` followed by `;` (no extension: `>` is
emitted alone and `;` is reprocessed) and on `>` followed by `=` (extension:
one `>=` token). -/
theorem c6_witness :
    (Lexer.processLoopF 4
        ⟨.ReadingWhitespace, ⟨"", [], [], [], 0⟩, ⟨[59], 0, ⟨1, 0⟩⟩, 62, false, [], true⟩ =
      Lexer.processLoopF 3
        ⟨.ReadingWhitespace,
         LexData.add_token ⟨"", [], [], [], 0⟩ .Punctuator (CharReader.nextchar ⟨[59], 0, ⟨1, 0⟩⟩).2.pos 62 0,
         (CharReader.nextchar ⟨[59], 0, ⟨1, 0⟩⟩).2, 59, false, [], true⟩) ∧
    (∃ st' : LexSt,
      Lexer.process ⟨.ReadingWhitespace, ⟨"", [], [], [], 0⟩, ⟨[61], 0, ⟨1, 0⟩⟩, 62, false, [], true⟩ =
        .ok (st', .NextChr) ∧
      st'.state = .ReadingWhitespace ∧
      st'.data = LexData.add_token ⟨"", [], [], [], 0⟩ .Punctuator (CharReader.nextchar ⟨[61], 0, ⟨1, 0⟩⟩).2.pos 62 61 ∧
      st'.reader = (CharReader.nextchar ⟨[61], 0, ⟨1, 0⟩⟩).2 ∧
      st'.prepro = false ∧ st'.tok_id = [] ∧ st'.keep_comments = true) :=
  ⟨c6_punctuator_maximal_munch.1 3 ⟨"", [], [], [], 0⟩ 0 ⟨1, 0⟩ 62 59 [] false [] true
      (by unfold lookaheadStarter; decide) (by unfold extendsOp; decide)
      (by unfold startsComment; decide),
   c6_punctuator_maximal_munch.2 ⟨"", [], [], [], 0⟩ 0 ⟨1, 0⟩ 62 61 [] false [] true
      (by unfold lookaheadStarter; decide) (by unfold extendsOp; decide)⟩
